import Mathlib

/-!
Verification of the two core components of the `tui_tetris` repository:
the combinatorial piece-sequence decoder (`src/gameboard.rs`) and the
configuration parser/serializer (`src/game_config.rs`).

Modelling conventions:
* Rust strings are modelled as `List Char` (`Str`); a configuration file is
  modelled as its list of physical lines (`List Str`), matching what
  `str::lines` produces on the Rust side.
* Machine integers (`u16`, `u64`, `usize`, `u8`) are modelled as `Nat`;
  where the Rust code can reject a value because it does not fit in the
  integer type (string-to-integer parsing), the model carries the explicit
  maximum of the type.  The target is assumed to be 64-bit, so
  `usize::MAX = u64::MAX = 2^64 - 1`.
* Fallible code returns `Option`/`Except`.  The unsafe
  `unreachable_unchecked()` branches of `decode_sequence_number` and
  `Tetromino::from` (undefined behaviour when reached) are modelled as
  `none`, as are out-of-bounds array accesses (panics).
* `char::is_whitespace` is modelled by `Char.isWhitespace` (the ASCII
  whitespace subset), and `to_ascii_lowercase` by `Char.toLower`, which
  also only affects ASCII letters.
-/

/-- Rust `&str`/`String` contents, modelled as the list of characters. -/
abbrev Str := List Char

/-- Shorthand turning a Lean string literal into the `Str` model. -/
def str (s : String) : Str := s.data

/-! ## The tetromino type (`src/tetromino.rs`) -/

/-- The seven tetromino symbols, `enum Tetromino` in `src/tetromino.rs`. -/
inductive Tetromino where
  | I
  | J
  | L
  | S
  | Z
  | T
  | O
deriving DecidableEq, Fintype

/-- `impl From<u16> for Tetromino`.  The `_ => unreachable_unchecked()`
arm (undefined behaviour) is modelled as `none`. -/
def Tetromino.fromNum : Nat → Option Tetromino
  | 0 => some .I
  | 1 => some .J
  | 2 => some .L
  | 3 => some .S
  | 4 => some .Z
  | 5 => some .T
  | 6 => some .O
  | _ => none

/-! ## The sequence decoder (`src/gameboard.rs`) -/

/-- `find_nth_unused(usage_map, n)` from `src/gameboard.rs`: walks
`usage_map` from index 0 while `n > 0 || usage_map[ind]`, decrementing `n`
on each unused slot, and returns the stopping index.  Running off the end
of the array is an out-of-bounds panic in Rust, modelled as `none`.  The
recursion consumes the suffix of the map starting at the current index. -/
def findNthUnusedAux : List Bool → Nat → Nat → Option Nat
  | [], _, _ => none
  | b :: rest, n, ind =>
    if n > 0 || b then
      findNthUnusedAux rest (if b then n else n - 1) (ind + 1)
    else
      some ind

/-- Entry point of `find_nth_unused` (index starts at 0). -/
def find_nth_unused (usage_map : List Bool) (n : Nat) : Option Nat :=
  findNthUnusedAux usage_map n 0

/-- The `while in_use[p6] { p6 += 1 }` loop computing the last piece:
first `false` in the map at or after `ind`; out-of-bounds is `none`. -/
def firstUnusedAux : List Bool → Nat → Option Nat
  | [], _ => none
  | b :: rest, ind => if b then firstUnusedAux rest (ind + 1) else some ind

/-- First match of `decode_sequence_number`: digit and subtrahend for the
6! = 720 block.  The final `_ => unsafe unreachable_unchecked()` arm is
modelled as `none`. -/
def pick720 (sn : Nat) : Option (Nat × Nat) :=
  if sn < 720 then some (0, 0)
  else if 720 ≤ sn ∧ sn < 1440 then some (1, 720)
  else if 1440 ≤ sn ∧ sn < 2160 then some (2, 1440)
  else if 2160 ≤ sn ∧ sn < 2880 then some (3, 2160)
  else if 2880 ≤ sn ∧ sn < 3600 then some (4, 2880)
  else if 3600 ≤ sn ∧ sn < 4320 then some (5, 3600)
  else if 4320 ≤ sn ∧ sn < 5040 then some (6, 4320)
  else none

/-- Second match: the 5! = 120 block. -/
def pick120 (sn : Nat) : Option (Nat × Nat) :=
  if sn < 120 then some (0, 0)
  else if 120 ≤ sn ∧ sn < 240 then some (1, 120)
  else if 240 ≤ sn ∧ sn < 360 then some (2, 240)
  else if 360 ≤ sn ∧ sn < 480 then some (3, 360)
  else if 480 ≤ sn ∧ sn < 600 then some (4, 480)
  else if 600 ≤ sn ∧ sn < 720 then some (5, 600)
  else none

/-- Third match: the 4! = 24 block. -/
def pick24 (sn : Nat) : Option (Nat × Nat) :=
  if sn < 24 then some (0, 0)
  else if 24 ≤ sn ∧ sn < 48 then some (1, 24)
  else if 48 ≤ sn ∧ sn < 72 then some (2, 48)
  else if 72 ≤ sn ∧ sn < 96 then some (3, 72)
  else if 96 ≤ sn ∧ sn < 120 then some (4, 96)
  else none

/-- Fourth match: the 3! = 6 block. -/
def pick6 (sn : Nat) : Option (Nat × Nat) :=
  if sn < 6 then some (0, 0)
  else if 6 ≤ sn ∧ sn < 12 then some (1, 6)
  else if 12 ≤ sn ∧ sn < 18 then some (2, 12)
  else if 18 ≤ sn ∧ sn < 24 then some (3, 18)
  else none

/-- Fifth match: the 2! = 2 block. -/
def pick2 (sn : Nat) : Option (Nat × Nat) :=
  if sn < 2 then some (0, 0)
  else if 2 ≤ sn ∧ sn < 4 then some (1, 2)
  else if 4 ≤ sn ∧ sn < 6 then some (2, 4)
  else none

/-- Converts the seven selected piece numbers through `Tetromino::from`
to build the output array. -/
def tetsOfNums : List Nat → Option (List Tetromino)
  | [] => some []
  | p :: rest =>
    match Tetromino.fromNum p, tetsOfNums rest with
    | some t, some ts => some (t :: ts)
    | _, _ => none

/-- `decode_sequence_number` from `src/gameboard.rs`, the unrolled
factorial-number-system decode of a sequence index into an ordering of
the 7 tetrominoes.  `in_use[p] = true` becomes `List.set` (every write is
in bounds on the domain, which the exhaustive theorems below certify);
reaching any `unreachable_unchecked()` arm is `none`. -/
def decode_sequence_number (sn0 : Nat) : Option (List Tetromino) :=
  match pick720 sn0 with
  | none => none
  | some (p0, sub0) =>
    let sn1 := sn0 - sub0
    let u1 := (List.replicate 7 false).set p0 true
    match pick120 sn1 with
    | none => none
    | some (d1, sub1) =>
      let sn2 := sn1 - sub1
      match find_nth_unused u1 d1 with
      | none => none
      | some p1 =>
        let u2 := u1.set p1 true
        match pick24 sn2 with
        | none => none
        | some (d2, sub2) =>
          let sn3 := sn2 - sub2
          match find_nth_unused u2 d2 with
          | none => none
          | some p2 =>
            let u3 := u2.set p2 true
            match pick6 sn3 with
            | none => none
            | some (d3, sub3) =>
              let sn4 := sn3 - sub3
              match find_nth_unused u3 d3 with
              | none => none
              | some p3 =>
                let u4 := u3.set p3 true
                match pick2 sn4 with
                | none => none
                | some (d4, sub4) =>
                  let sn5 := sn4 - sub4
                  match find_nth_unused u4 d4 with
                  | none => none
                  | some p4 =>
                    let u5 := u4.set p4 true
                    match find_nth_unused u5 sn5 with
                    | none => none
                    | some p5 =>
                      let u6 := u5.set p5 true
                      match firstUnusedAux u6 0 with
                      | none => none
                      | some p6 => tetsOfNums [p0, p1, p2, p3, p4, p5, p6]

/-! ### Rank (inverse of the decoder), used to certify injectivity -/

/-- Canonical number of a tetromino, inverse of `Tetromino.fromNum`. -/
def Tetromino.toNum : Tetromino → Nat
  | .I => 0
  | .J => 1
  | .L => 2
  | .S => 3
  | .Z => 4
  | .T => 5
  | .O => 6

/-- Lehmer rank of a list of distinct naturals: digit at each position is
the number of strictly smaller entries to its right, weighted by the
factorial of the number of remaining positions. -/
def lehmerRank : List Nat → Nat
  | [] => 0
  | x :: rest =>
    (rest.filter (fun y => y < x)).length * rest.length.factorial + lehmerRank rest

/-- Rank of a tetromino sequence: Lehmer rank of its canonical numbers. -/
def encodeSeq (l : List Tetromino) : Nat := lehmerRank (l.map Tetromino.toNum)

/-- The canonical ordering of the seven tetrominoes. -/
def allTets : List Tetromino := [.I, .J, .L, .S, .Z, .T, .O]

/-- Executable per-index check: the decode succeeds, contains every
tetromino exactly once, and `encodeSeq` maps it back to the index. -/
def decodeOK (n : Nat) : Bool :=
  match decode_sequence_number n with
  | some l => encodeSeq l == n && allTets.all (fun t => l.count t == 1)
  | none => false

/-- Tail-style conjunction of `decodeOK` over `[lo, lo + fuel)`. -/
def checkRange : Nat → Nat → Bool
  | _, 0 => true
  | lo, fuel + 1 => decodeOK lo && checkRange (lo + 1) fuel

/-- Total variant of the decoder used in the counting argument. -/
def decodeAt (n : Nat) : List Tetromino := (decode_sequence_number n).getD []

/-! ## The configuration parser (`src/game_config.rs`): basic string ops -/

/-- Byte count of a character in UTF-8, Rust `char::len_utf8`. -/
def charBytes (c : Char) : Nat :=
  if c.val < 128 then 1
  else if c.val < 2048 then 2
  else if c.val < 65536 then 3
  else 4

/-- Rust `str::len` (number of UTF-8 bytes). -/
def rustLen (s : Str) : Nat := (s.map charBytes).sum

/-- Rust `str::trim` (whitespace stripped from both ends). -/
def trim (s : Str) : Str :=
  ((s.dropWhile Char.isWhitespace).reverse.dropWhile Char.isWhitespace).reverse

/-- Rust `str::split(sep)`, accumulator form. -/
def splitCharAux (sep : Char) : Str → Str → List Str
  | [], acc => [acc.reverse]
  | c :: rest, acc =>
    if c = sep then acc.reverse :: splitCharAux sep rest []
    else splitCharAux sep rest (c :: acc)

/-- Rust `str::split(sep)`: the list of (possibly empty) parts between
occurrences of `sep`. -/
def splitChar (sep : Char) (s : Str) : List Str := splitCharAux sep s []

/-- Rust `str::split_whitespace`, accumulator form. -/
def splitWsAux : Str → Str → List Str
  | [], acc => if acc.isEmpty then [] else [acc.reverse]
  | c :: rest, acc =>
    if c.isWhitespace then
      if acc.isEmpty then splitWsAux rest [] else acc.reverse :: splitWsAux rest []
    else splitWsAux rest (c :: acc)

/-- Rust `str::split_whitespace`: maximal non-whitespace words. -/
def splitWs (s : Str) : List Str := splitWsAux s []

/-- Rust `str::to_ascii_lowercase`. -/
def toAsciiLower (s : Str) : Str := s.map Char.toLower

/-- Numeric value of the decimal digit list (no validity check). -/
def decimalValue (s : Str) : Nat := s.foldl (fun a c => a * 10 + (c.toNat - 48)) 0

/-- Rust `str::parse` for an unsigned integer type, without the range
limit: an optional leading `+` followed by one or more ASCII digits. -/
def parseUIntRaw (s : Str) : Option Nat :=
  let t := if s.head? = some '+' then s.tail else s
  if t.isEmpty then none
  else if t.all Char.isDigit then some (decimalValue t) else none

/-- Largest value of `u64` (and of `usize` on the assumed 64-bit target). -/
def U64_MAX : Nat := 18446744073709551615

/-- Largest value of `usize`. -/
def USIZE_MAX : Nat := U64_MAX

/-- Rust `str::parse::<uN>()`: overflow of the target type is an error. -/
def parseUInt (bound : Nat) (s : Str) : Option Nat :=
  match parseUIntRaw s with
  | some v => if v ≤ bound then some v else none
  | none => none

/-! ### Types of `src/game_config.rs` -/

/-- `enum Mode`. -/
inductive Mode where
  | Classic
  | Modern
deriving DecidableEq

/-- The `crossterm::KeyEvent` variants that the config parser can
produce (the other variants of the external crate are unreachable from
this code and are omitted from the model). -/
inductive KeyEvent where
  | Char (c : Char)
  | Left
  | Right
  | Up
  | Down
  | ShiftLeft
  | ShiftRight
  | CtrlLeft
  | CtrlRight
  | Esc
deriving DecidableEq

/-- The `crossterm::Color` variants the parser can produce (`Rgb` and
`AnsiValue`; the named-color variants are unreachable from this code). -/
inductive Color where
  | Rgb (r : Nat) (g : Nat) (b : Nat)
  | AnsiValue (n : Nat)
deriving DecidableEq

/-- `enum ParseErrorKind`. -/
inductive ParseErrorKind where
  | InvalidLineFormat
  | UnknownSetting
  | InvalidValue
  | DuplicateSetting
  | FailedParseValue
  | MissingValue
deriving DecidableEq

/-- `struct ParseError` (the `correction` is a static string in Rust). -/
structure ParseError where
  kind : ParseErrorKind
  line_num : Nat
  line : Str
  correction : Option String
deriving DecidableEq

/-- `ParseError::new`. -/
def ParseError.new (kind : ParseErrorKind) (line_num : Nat) (line : Str)
    (correction : Option String) : ParseError :=
  ⟨kind, line_num, line, correction⟩

/-- The settings table `HashMap<&str, (&str, usize, &str)>`, modelled as
an association list (key, (raw value, line number, full line)); the
tokenizer never inserts a key twice, so lookup order is immaterial. -/
abbrev Settings := List (Str × Str × Nat × Str)

/-- `HashMap::get`. -/
def settingsGet : Settings → Str → Option (Str × Nat × Str)
  | [], _ => none
  | (k, v) :: rest, key => if k = key then some v else settingsGet rest key

/-- `CONFIG_OPTIONS`: the 35 recognized setting names. -/
def CONFIG_OPTIONS : List Str :=
  [str "fps", str "board_width", str "board_height", str "monochrome",
   str "cascade", str "const_level", str "ghost_tetromino_character",
   str "ghost_tetromino_color", str "top_border_character",
   str "left_border_character", str "bottom_border_character",
   str "right_border_character", str "tl_corner_character",
   str "bl_corner_character", str "br_corner_character",
   str "tr_corner_character", str "border_color", str "block_character",
   str "block_size", str "mode", str "move_left", str "move_right",
   str "rotate_clockwise", str "rotate_anticlockwise", str "soft_drop",
   str "hard_drop", str "hold", str "background_color", str "i_color",
   str "j_color", str "l_color", str "s_color", str "z_color",
   str "t_color", str "o_color"]

/-- `VALID_SETTINGS`: hint listing the valid settings. -/
def VALID_SETTINGS : String :=
  "Valid settings:\nfps, board_width, board_height, monochrome, cascade, const_level, ghost_tetromino_character,\nghost_tetromino_color, top_border_character, left_border_character, bottom_border_character,\nright_border_character, tl_corner_character, bl_corner_character, br_corner_character,\ntr_corner_character, border_color, block_character, block_size, mode, move_left, move_right,\nrotate_clockwise, rotate_anticlockwise, soft_drop, hard_drop, hold, background_color, i_color,\nj_color, l_color, s_color, z_color, t_color, o_color"

/-! ### Compiled-in defaults -/

def D_FPS : Nat := 60
def D_BOARD_WIDTH : Nat := 10
def D_BOARD_HEIGHT : Nat := 20
def D_MODE : Mode := Mode.Modern
def D_LEFT : KeyEvent := KeyEvent.Left
def D_RIGHT : KeyEvent := KeyEvent.Right
def D_ROT_CW : KeyEvent := KeyEvent.ShiftLeft
def D_ROT_ACW : KeyEvent := KeyEvent.Up
def D_SOFT_DROP : KeyEvent := KeyEvent.Down
def D_HARD_DROP : Option KeyEvent := some (KeyEvent.Char ' ')
def D_HOLD : Option KeyEvent := some (KeyEvent.Char 'c')
def D_GHOST_TETROMINO_CHARACTER : Option Char := some '□'
def D_GHOST_TETROMINO_COLOR : Option Color := some (Color.Rgb 240 240 240)
def D_CASCADE : Bool := false
def D_CONST_LEVEL : Option Nat := none
def D_MONOCHROME : Option Color := none
def D_BORDER_COLOR : Color := Color.Rgb 255 255 255
def D_TOP_BORDER_CHARACTER : Char := '═'
def D_TL_CORNER_CHARACTER : Char := '╔'
def D_LEFT_BORDER_CHARACTER : Char := '║'
def D_BL_CORNER_CHARACTER : Char := '╚'
def D_BOTTOM_BORDER_CHARACTER : Char := '═'
def D_BR_CORNER_CHARACTER : Char := '╝'
def D_RIGHT_BORDER_CHARACTER : Char := '║'
def D_TR_CORNER_CHARACTER : Char := '╗'
def D_BACKGROUND_COLOR : Color := Color.Rgb 0 0 0
def D_BLOCK_CHARACTER : Char := '■'
def D_BLOCK_SIZE : Nat := 1
def D_I_COLOR : Color := Color.Rgb 0 240 240
def D_J_COLOR : Color := Color.Rgb 0 0 240
def D_L_COLOR : Color := Color.Rgb 240 160 0
def D_S_COLOR : Color := Color.Rgb 0 240 0
def D_Z_COLOR : Color := Color.Rgb 240 0 0
def D_T_COLOR : Color := Color.Rgb 160 0 240
def D_O_COLOR : Color := Color.Rgb 240 240 0

/-! ### Lookup helpers and value parsers -/

/-- `general_parse`: parse the setting if present, else the default. -/
def general_parse {α : Type} (map : Settings) (key : Str) (default : α)
    (parser : Str → Nat → Str → Except ParseError α) : Except ParseError α :=
  match settingsGet map key with
  | some (unparsed_setting, line_num, line) => parser unparsed_setting line_num line
  | none => .ok default

/-- `opt_general_parse`: as `general_parse`, but a raw value equal
(case-insensitively) to `none` yields the empty optional. -/
def opt_general_parse {α : Type} (map : Settings) (key : Str) (default : Option α)
    (parser : Str → Nat → Str → Except ParseError α) : Except ParseError (Option α) :=
  match settingsGet map key with
  | some (rhs, line_num, line) =>
    if toAsciiLower rhs = str "none" then .ok none
    else
      match parser rhs line_num line with
      | .ok v => .ok (some v)
      | .error e => .error e
  | none => .ok default

/-- `parse_num_range` with the `1..` range used at every call site:
parse failure (including overflow of the integer type, `bound`) is
`FailedParseValue`; a parsed value below `lo` is `InvalidValue`. -/
def parse_num_range (map : Settings) (key : Str) (default : Nat) (bound : Nat)
    (lo : Nat) (fp_message : String) (oor_message : String) : Except ParseError Nat :=
  match settingsGet map key with
  | some (rhs, line_num, line) =>
    match parseUInt bound rhs with
    | none => .error (ParseError.new .FailedParseValue line_num line (some fp_message))
    | some parsed =>
      if lo ≤ parsed then .ok parsed
      else .error (ParseError.new .InvalidValue line_num line (some oor_message))
  | none => .ok default

/-- `opt_parse_num_range`: as `parse_num_range` with the `none` sentinel. -/
def opt_parse_num_range (map : Settings) (key : Str) (default : Option Nat)
    (bound : Nat) (lo : Nat) (fp_message : String) (oor_message : String) :
    Except ParseError (Option Nat) :=
  match settingsGet map key with
  | some (rhs, line_num, line) =>
    if toAsciiLower rhs = str "none" then .ok none
    else
      match parseUInt bound rhs with
      | none => .error (ParseError.new .FailedParseValue line_num line (some fp_message))
      | some parsed =>
        if lo ≤ parsed then .ok (some parsed)
        else .error (ParseError.new .InvalidValue line_num line (some oor_message))
  | none => .ok default

/-- `parse_mode`. -/
def parse_mode (rhs : Str) (line_num : Nat) (line : Str) : Except ParseError Mode :=
  if toAsciiLower rhs = str "c" ∨ toAsciiLower rhs = str "classic" then .ok Mode.Classic
  else if toAsciiLower rhs = str "m" ∨ toAsciiLower rhs = str "modern" then .ok Mode.Modern
  else .error (ParseError.new .InvalidValue line_num line
    (some "Accepted game mode indicators: c, classic, m, modern."))

/-- `parse_keyevent`.  The Rust code matches on the byte length of the
value; when it is 1 the value has exactly one (ASCII) character, taken by
`chars().next().unwrap()` — the empty-list arm below models the
impossible unwrap panic.  The hint text is reproduced without its quote
characters. -/
def parse_keyevent (rhs : Str) (line_num : Nat) (line : Str) : Except ParseError KeyEvent :=
  if rustLen rhs = 1 then
    match rhs with
    | c :: _ => .ok (KeyEvent.Char c)
    | [] => .error (ParseError.new .InvalidValue line_num line none)
  else if rhs = str "space" then .ok (KeyEvent.Char ' ')
  else if rhs = str "left" then .ok KeyEvent.Left
  else if rhs = str "right" then .ok KeyEvent.Right
  else if rhs = str "up" then .ok KeyEvent.Up
  else if rhs = str "down" then .ok KeyEvent.Down
  else if rhs = str "lshift" then .ok KeyEvent.ShiftLeft
  else if rhs = str "rshift" then .ok KeyEvent.ShiftRight
  else if rhs = str "lctrl" then .ok KeyEvent.CtrlLeft
  else if rhs = str "rctrl" then .ok KeyEvent.CtrlRight
  else if rhs = str "esc" then .ok KeyEvent.Esc
  else .error (ParseError.new .InvalidValue line_num line
    (some "Supported non-single-character values: space, left, right, up, down, lshift, rshift, lctrl, rctrl, and esc."))

/-- `Option::ok_or_else` specialised to `ParseError`. -/
def expectSome {α : Type} (o : Option α) (e : ParseError) : Except ParseError α :=
  match o with
  | some a => .ok a
  | none => .error e

/-- `parse_rgb_triple`: split at commas, take and parse the first three
parts as `u8` (extra parts are never requested). -/
def parse_rgb_triple (s : Str) (line_num : Nat) (line : Str) :
    Except ParseError (Nat × Nat × Nat) :=
  match expectSome ((splitChar ',' s).get? 0)
      (ParseError.new .MissingValue line_num line (some "Missing R value.")) with
  | .error e => .error e
  | .ok rs =>
    match expectSome (parseUInt 255 rs)
        (ParseError.new .FailedParseValue line_num line (some "Failed to parse R value.")) with
    | .error e => .error e
    | .ok r =>
      match expectSome ((splitChar ',' s).get? 1)
          (ParseError.new .MissingValue line_num line (some "Missing G value.")) with
      | .error e => .error e
      | .ok gs =>
        match expectSome (parseUInt 255 gs)
            (ParseError.new .FailedParseValue line_num line (some "Failed to parse G value.")) with
        | .error e => .error e
        | .ok g =>
          match expectSome ((splitChar ',' s).get? 2)
              (ParseError.new .MissingValue line_num line (some "Missing B value.")) with
          | .error e => .error e
          | .ok bs =>
            match expectSome (parseUInt 255 bs)
                (ParseError.new .FailedParseValue line_num line (some "Failed to parse B value.")) with
            | .error e => .error e
            | .ok b => .ok (r, g, b)

/-- `parse_color`: `rgb r,g,b` or `ansi n`. -/
def parse_color (rhs : Str) (line_num : Nat) (line : Str) : Except ParseError Color :=
  match splitWs rhs with
  | [] => .error (ParseError.new .MissingValue line_num line (some "Missing color type."))
  | [_] => .error (ParseError.new .MissingValue line_num line (some "Missing color."))
  | color_type :: color :: _ =>
    if toAsciiLower color_type = str "rgb" then
      match parse_rgb_triple color line_num line with
      | .error e => .error e
      | .ok (r, g, b) => .ok (Color.Rgb r g b)
    else if toAsciiLower color_type = str "ansi" then
      match expectSome (parseUInt 255 color)
          (ParseError.new .FailedParseValue line_num line
            (some "Failed to parse ANSI color value.")) with
      | .error e => .error e
      | .ok c => .ok (Color.AnsiValue c)
    else .error (ParseError.new .InvalidValue line_num line
      (some "Accepted color formats are: rgb, ansi."))

/-- `parse_char`: exactly one character. -/
def parse_char (rhs : Str) (line_num : Nat) (line : Str) : Except ParseError Char :=
  match rhs with
  | [] => .error (ParseError.new .MissingValue line_num line (some "Missing character value."))
  | [c] => .ok c
  | _ :: _ :: _ => .error (ParseError.new .InvalidValue line_num line
      (some "Expected a single character value."))

/-- `parse_bool`. -/
def parse_bool (rhs : Str) (line_num : Nat) (line : Str) : Except ParseError Bool :=
  if toAsciiLower rhs = str "1" ∨ toAsciiLower rhs = str "t" ∨
      toAsciiLower rhs = str "true" then .ok true
  else if toAsciiLower rhs = str "0" ∨ toAsciiLower rhs = str "f" ∨
      toAsciiLower rhs = str "false" then .ok false
  else .error (ParseError.new .InvalidValue line_num line
    (some "Accepted boolean values: 1, t, true, 0, f, false"))

/-! ### The configuration record, tokenizer and assembler -/

/-- `struct GameConfig`. -/
structure GameConfig where
  fps : Nat
  board_width : Nat
  board_height : Nat
  mode : Mode
  left : KeyEvent
  right : KeyEvent
  rot_cw : KeyEvent
  rot_acw : KeyEvent
  soft_drop : KeyEvent
  hard_drop : Option KeyEvent
  hold : Option KeyEvent
  ghost_tetromino_character : Option Char
  ghost_tetromino_color : Option Color
  cascade : Bool
  const_level : Option Nat
  monochrome : Option Color
  border_color : Color
  top_border_character : Char
  tl_corner_character : Char
  left_border_character : Char
  bl_corner_character : Char
  bottom_border_character : Char
  br_corner_character : Char
  right_border_character : Char
  tr_corner_character : Char
  background_color : Color
  block_character : Char
  block_size : Nat
  i_color : Color
  j_color : Color
  l_color : Color
  s_color : Color
  z_color : Color
  t_color : Color
  o_color : Color
deriving DecidableEq

/-- `GameConfig::default`. -/
def GameConfig.default : GameConfig :=
  ⟨D_FPS, D_BOARD_WIDTH, D_BOARD_HEIGHT, D_MODE, D_LEFT, D_RIGHT, D_ROT_CW,
   D_ROT_ACW, D_SOFT_DROP, D_HARD_DROP, D_HOLD, D_GHOST_TETROMINO_CHARACTER,
   D_GHOST_TETROMINO_COLOR, D_CASCADE, D_CONST_LEVEL, D_MONOCHROME,
   D_BORDER_COLOR, D_TOP_BORDER_CHARACTER, D_TL_CORNER_CHARACTER,
   D_LEFT_BORDER_CHARACTER, D_BL_CORNER_CHARACTER, D_BOTTOM_BORDER_CHARACTER,
   D_BR_CORNER_CHARACTER, D_RIGHT_BORDER_CHARACTER, D_TR_CORNER_CHARACTER,
   D_BACKGROUND_COLOR, D_BLOCK_CHARACTER, D_BLOCK_SIZE, D_I_COLOR, D_J_COLOR,
   D_L_COLOR, D_S_COLOR, D_Z_COLOR, D_T_COLOR, D_O_COLOR⟩

/-- The tokenizer loop of `GameConfig::parse` over the enumerated lines:
skips blank and comment lines, splits each remaining line at `=`, and
builds the settings table, failing fast on the first malformed,
unrecognized or duplicate line. -/
def tokenize : List (Nat × Str) → Settings → Except ParseError Settings
  | [], settings => .ok settings
  | (num, line) :: rest, settings =>
    if line.isEmpty then tokenize rest settings
    else if line.head? = some '#' then tokenize rest settings
    else
      match (splitChar '=' line).get? 0 with
      | none => .error (ParseError.new .InvalidLineFormat num line none)
      | some lhs0 =>
        if (trim lhs0).isEmpty then
          .error (ParseError.new .InvalidLineFormat num line
            (some "There must be a setting name on the left side of the equals sign."))
        else
          match (splitChar '=' line).get? 1 with
          | none => .error (ParseError.new .InvalidLineFormat num line none)
          | some rhs0 =>
            if (trim rhs0).isEmpty then
              .error (ParseError.new .InvalidLineFormat num line
                (some "There must be a value on the right side of the equals sign."))
            else if CONFIG_OPTIONS.contains (trim lhs0) then
              if (settingsGet settings (trim lhs0)).isSome then
                .error (ParseError.new .DuplicateSetting num line none)
              else
                tokenize rest (settings ++ [(trim lhs0, trim rhs0, num, line)])
            else
              .error (ParseError.new .UnknownSetting num line (some VALID_SETTINGS))

/-- `Except` bind with the error type fixed, written out so that the
long assembler chain stays cheap to elaborate. -/
def eb {α β : Type} (x : Except ParseError α) (f : α → Except ParseError β) :
    Except ParseError β :=
  match x with
  | .error e => .error e
  | .ok a => f a

/-- Models the `unreachable!()` panic in the dimension check (never hit:
the defaults alone satisfy the dimension rule). -/
def panicUnreachable : ParseError := ParseError.new .InvalidLineFormat 0 [] none

/-- The tail of `GameConfig::parse` after all fields are parsed: the
board-dimension check (attributing the error to `block_size`, then
`board_height`, then `board_width`), then the mutually exclusive
monochrome overwrite and classic-mode feature stripping, then the record
construction. -/
def finalize (settings : Settings) (fps board_width board_height : Nat)
    (mode : Mode) (left right rot_cw rot_acw soft_drop : KeyEvent)
    (hard_drop hold : Option KeyEvent) (ghost_tetromino_character : Option Char)
    (ghost_tetromino_color : Option Color) (cascade : Bool)
    (const_level : Option Nat) (monochrome : Option Color)
    (border_color : Color)
    (top_border_character tl_corner_character left_border_character
      bl_corner_character bottom_border_character br_corner_character
      right_border_character tr_corner_character : Char)
    (background_color : Color) (block_character : Char) (block_size : Nat)
    (i_color j_color l_color s_color z_color t_color o_color : Color) :
    Except ParseError GameConfig :=
  if board_width ≤ block_size * 4 ∨ board_height ≤ block_size * 4 then
    match settingsGet settings (str "block_size") with
    | some (_, line_num, line) =>
      .error (ParseError.new .InvalidValue line_num line
        (some "Board dimensions must be greater than or equal to block size."))
    | none =>
      match settingsGet settings (str "board_height") with
      | some (_, line_num, line) =>
        .error (ParseError.new .InvalidValue line_num line
          (some "Board dimensions must be greater than or equal to block size."))
      | none =>
        match settingsGet settings (str "board_width") with
        | some (_, line_num, line) =>
          .error (ParseError.new .InvalidValue line_num line
            (some "Board dimensions must be greater than or equal to block size."))
        | none => .error panicUnreachable
  else
    match monochrome with
    | some m =>
      .ok ⟨fps, board_width, board_height, mode, left, right, rot_cw, rot_acw,
        soft_drop, hard_drop, hold, ghost_tetromino_character,
        ghost_tetromino_color, cascade, const_level, monochrome, border_color,
        top_border_character, tl_corner_character, left_border_character,
        bl_corner_character, bottom_border_character, br_corner_character,
        right_border_character, tr_corner_character, background_color,
        block_character, block_size, m, m, m, m, m, m, m⟩
    | none =>
      if mode = Mode.Classic then
        .ok ⟨fps, board_width, board_height, mode, left, right, rot_cw, rot_acw,
          soft_drop, none, none, none, none, cascade, const_level, monochrome,
          border_color, top_border_character, tl_corner_character,
          left_border_character, bl_corner_character, bottom_border_character,
          br_corner_character, right_border_character, tr_corner_character,
          background_color, block_character, block_size, i_color, j_color,
          l_color, s_color, z_color, t_color, o_color⟩
      else
        .ok ⟨fps, board_width, board_height, mode, left, right, rot_cw, rot_acw,
          soft_drop, hard_drop, hold, ghost_tetromino_character,
          ghost_tetromino_color, cascade, const_level, monochrome, border_color,
          top_border_character, tl_corner_character, left_border_character,
          bl_corner_character, bottom_border_character, br_corner_character,
          right_border_character, tr_corner_character, background_color,
          block_character, block_size, i_color, j_color, l_color, s_color,
          z_color, t_color, o_color⟩

/-- The per-field assembly of `GameConfig::parse`, in source order.  Note
the four movement/rotation lookups use the keys `left`, `right`,
`rot_cw`, `rot_acw` exactly as the source does — these are not among the
`CONFIG_OPTIONS` the tokenizer accepts. -/
def assemble (settings : Settings) : Except ParseError GameConfig :=
  eb (parse_num_range settings (str "fps") D_FPS U64_MAX 1
      "Failed to parse FPS value."
      "FPS value is not greater than or equal to 1.") (fun fps =>
  eb (parse_num_range settings (str "board_width") D_BOARD_WIDTH USIZE_MAX 1
      "Failed to parse board width value."
      "Board width value is not greater than or equal to 1.") (fun board_width =>
  eb (parse_num_range settings (str "board_height") D_BOARD_HEIGHT USIZE_MAX 1
      "Failed to parse board height value."
      "Board height value is not greater than or equal to 1.") (fun board_height =>
  eb (general_parse settings (str "mode") D_MODE parse_mode) (fun mode =>
  eb (general_parse settings (str "left") D_LEFT parse_keyevent) (fun left =>
  eb (general_parse settings (str "right") D_RIGHT parse_keyevent) (fun right =>
  eb (general_parse settings (str "rot_cw") D_ROT_CW parse_keyevent) (fun rot_cw =>
  eb (general_parse settings (str "rot_acw") D_ROT_ACW parse_keyevent) (fun rot_acw =>
  eb (general_parse settings (str "soft_drop") D_SOFT_DROP parse_keyevent) (fun soft_drop =>
  eb (opt_general_parse settings (str "hard_drop") D_HARD_DROP parse_keyevent) (fun hard_drop =>
  eb (opt_general_parse settings (str "hold") D_HOLD parse_keyevent) (fun hold =>
  eb (opt_general_parse settings (str "ghost_tetromino_character")
      D_GHOST_TETROMINO_CHARACTER parse_char) (fun ghost_tetromino_character =>
  eb (opt_general_parse settings (str "ghost_tetromino_color")
      D_GHOST_TETROMINO_COLOR parse_color) (fun ghost_tetromino_color =>
  eb (general_parse settings (str "cascade") D_CASCADE parse_bool) (fun cascade =>
  eb (opt_parse_num_range settings (str "const_level") D_CONST_LEVEL USIZE_MAX 1
      "Failed to parse constant level value."
      "Level value was not greater than or equal to 1.") (fun const_level =>
  eb (opt_general_parse settings (str "monochrome") D_MONOCHROME parse_color) (fun monochrome =>
  eb (general_parse settings (str "border_color") D_BORDER_COLOR parse_color) (fun border_color =>
  eb (general_parse settings (str "top_border_character")
      D_TOP_BORDER_CHARACTER parse_char) (fun top_border_character =>
  eb (general_parse settings (str "tl_corner_character")
      D_TL_CORNER_CHARACTER parse_char) (fun tl_corner_character =>
  eb (general_parse settings (str "left_border_character")
      D_LEFT_BORDER_CHARACTER parse_char) (fun left_border_character =>
  eb (general_parse settings (str "bl_corner_character")
      D_BL_CORNER_CHARACTER parse_char) (fun bl_corner_character =>
  eb (general_parse settings (str "bottom_border_character")
      D_BOTTOM_BORDER_CHARACTER parse_char) (fun bottom_border_character =>
  eb (general_parse settings (str "br_corner_character")
      D_BR_CORNER_CHARACTER parse_char) (fun br_corner_character =>
  eb (general_parse settings (str "right_border_character")
      D_RIGHT_BORDER_CHARACTER parse_char) (fun right_border_character =>
  eb (general_parse settings (str "tr_corner_character")
      D_TR_CORNER_CHARACTER parse_char) (fun tr_corner_character =>
  eb (general_parse settings (str "background_color")
      D_BACKGROUND_COLOR parse_color) (fun background_color =>
  eb (general_parse settings (str "block_character")
      D_BLOCK_CHARACTER parse_char) (fun block_character =>
  eb (parse_num_range settings (str "block_size") D_BLOCK_SIZE USIZE_MAX 1
      "Failed to parse block size value."
      "Block size must be greater than or equal to 1.") (fun block_size =>
  eb (general_parse settings (str "i_color") D_I_COLOR parse_color) (fun i_color =>
  eb (general_parse settings (str "j_color") D_J_COLOR parse_color) (fun j_color =>
  eb (general_parse settings (str "l_color") D_L_COLOR parse_color) (fun l_color =>
  eb (general_parse settings (str "s_color") D_S_COLOR parse_color) (fun s_color =>
  eb (general_parse settings (str "z_color") D_Z_COLOR parse_color) (fun z_color =>
  eb (general_parse settings (str "t_color") D_T_COLOR parse_color) (fun t_color =>
  eb (general_parse settings (str "o_color") D_O_COLOR parse_color) (fun o_color =>
  finalize settings fps board_width board_height mode left right rot_cw rot_acw
    soft_drop hard_drop hold ghost_tetromino_character ghost_tetromino_color
    cascade const_level monochrome border_color top_border_character
    tl_corner_character left_border_character bl_corner_character
    bottom_border_character br_corner_character right_border_character
    tr_corner_character background_color block_character block_size i_color
    j_color l_color s_color z_color t_color o_color)))))))))))))))))))))))))))))))))))

/-- `GameConfig::parse`, over the list of physical lines of the file. -/
def GameConfig.parse (ls : List Str) : Except ParseError GameConfig :=
  match tokenize (List.enum ls) [] with
  | .error e => .error e
  | .ok settings => assemble settings

/-! ### The configuration serializer (`impl Display for GameConfig`) -/

/-- Decimal digits of a natural number, accumulator form. -/
def natDigitsAux (n : Nat) (acc : Str) : Str :=
  if n < 10 then Nat.digitChar (n % 10) :: acc
  else natDigitsAux (n / 10) (Nat.digitChar (n % 10) :: acc)
termination_by n
decreasing_by exact Nat.div_lt_self (by omega) (by omega)

/-- Decimal rendering of a natural number (Rust `Display` for integers). -/
def natToStr (n : Nat) : Str := natDigitsAux n []

/-- `keyevent_string` (total here: the model's `KeyEvent` has exactly the
variants the parser can produce, so the `_ => unreachable!()` arm of the
Rust function has no counterpart). -/
def keyevent_string : KeyEvent → Str
  | .Char c => if c = ' ' then str "space" else [c]
  | .Left => str "left"
  | .Right => str "right"
  | .Up => str "up"
  | .Down => str "down"
  | .ShiftLeft => str "lshift"
  | .ShiftRight => str "rshift"
  | .CtrlLeft => str "lctrl"
  | .CtrlRight => str "rctrl"
  | .Esc => str "esc"

/-- `opt_keyevent_string`. -/
def opt_keyevent_string : Option KeyEvent → Str
  | some k => keyevent_string k
  | none => str "none"

/-- `opt_char_string`. -/
def opt_char_string : Option Char → Str
  | some c => [c]
  | none => str "none"

/-- `color_string` (total here: the model's `Color` has exactly the
variants the parser can produce). -/
def color_string : Color → Str
  | .Rgb r g b => str "rgb " ++ natToStr r ++ [','] ++ natToStr g ++ [','] ++ natToStr b
  | .AnsiValue n => str "ansi " ++ natToStr n

/-- `opt_color_string`. -/
def opt_color_string : Option Color → Str
  | some c => color_string c
  | none => str "none"

/-- `bool_string`. -/
def bool_string : Bool → Str
  | true => str "t"
  | false => str "f"

/-- `opt_usize_string`. -/
def opt_usize_string : Option Nat → Str
  | some n => natToStr n
  | none => str "none"

/-- `impl Display for Mode`. -/
def mode_string : Mode → Str
  | .Classic => str "classic"
  | .Modern => str "modern"

/-- One `key = value` line as written by the `Display` implementation. -/
def mkLine (k v : Str) : Str := k ++ [' ', '=', ' '] ++ v

/-- The 35 (key, rendered value) pairs of the `Display` implementation,
in its exact order. -/
def serPairs (c : GameConfig) : List (Str × Str) :=
  [(str "fps", natToStr c.fps),
   (str "board_width", natToStr c.board_width),
   (str "board_height", natToStr c.board_height),
   (str "mode", mode_string c.mode),
   (str "move_left", keyevent_string c.left),
   (str "move_right", keyevent_string c.right),
   (str "rotate_clockwise", keyevent_string c.rot_cw),
   (str "rotate_anticlockwise", keyevent_string c.rot_acw),
   (str "soft_drop", keyevent_string c.soft_drop),
   (str "hard_drop", opt_keyevent_string c.hard_drop),
   (str "hold", opt_keyevent_string c.hold),
   (str "ghost_tetromino_character", opt_char_string c.ghost_tetromino_character),
   (str "ghost_tetromino_color", opt_color_string c.ghost_tetromino_color),
   (str "cascade", bool_string c.cascade),
   (str "const_level", opt_usize_string c.const_level),
   (str "monochrome", opt_color_string c.monochrome),
   (str "border_color", color_string c.border_color),
   (str "top_border_character", [c.top_border_character]),
   (str "tl_corner_character", [c.tl_corner_character]),
   (str "left_border_character", [c.left_border_character]),
   (str "bl_corner_character", [c.bl_corner_character]),
   (str "bottom_border_character", [c.bottom_border_character]),
   (str "br_corner_character", [c.br_corner_character]),
   (str "right_border_character", [c.right_border_character]),
   (str "tr_corner_character", [c.tr_corner_character]),
   (str "background_color", color_string c.background_color),
   (str "block_character", [c.block_character]),
   (str "block_size", natToStr c.block_size),
   (str "i_color", color_string c.i_color),
   (str "j_color", color_string c.j_color),
   (str "l_color", color_string c.l_color),
   (str "s_color", color_string c.s_color),
   (str "z_color", color_string c.z_color),
   (str "t_color", color_string c.t_color),
   (str "o_color", color_string c.o_color)]

/-- The serializer: the list of lines written by `Display` (the final
newline of the Rust format string terminates the last line and produces
no extra line under `str::lines`). -/
def serialize (c : GameConfig) : List Str :=
  (serPairs c).map (fun p => mkLine p.1 p.2)

deriving instance DecidableEq for Except

/-! ### Predicates and helper functions used by the verification -/

/-- Invariant of every raw value stored in the settings table: nonempty,
trimmed, and free of `=` (it lies between the first and second `=`). -/
def GoodRhs (v : Str) : Prop := v ≠ [] ∧ trim v = v ∧ '=' ∉ v

/-- A character value the parser can produce: it came from a trimmed,
`=`-free raw value of exactly one character. -/
def GoodChar (c : Char) : Prop := c.isWhitespace = false ∧ c ≠ '='

/-- A key binding the parser can produce: a named key, or a character
coming from a one-byte raw value (and `Char ' '` itself, which the
literal `space` produces and the serializer renders back as `space`). -/
def GoodKeyEvent : KeyEvent → Prop
  | .Char c => c = ' ' ∨ (charBytes c = 1 ∧ GoodChar c)
  | _ => True

/-- A color the parser can produce: all components fit in `u8`. -/
def GoodColor : Color → Prop
  | .Rgb r g b => r ≤ 255 ∧ g ≤ 255 ∧ b ≤ 255
  | .AnsiValue n => n ≤ 255

/-- Lifts a predicate over an optional value. -/
def GoodOpt {α : Type} (P : α → Prop) : Option α → Prop
  | some a => P a
  | none => True

/-- Characterization of the configuration records `GameConfig.parse` can
return: every field satisfies the constraints its parser (or default)
enforces, the cross-field dimension rule holds, the four movement keys
are stuck at their defaults (the assembler looks them up under the keys
`left`/`right`/`rot_cw`/`rot_acw`, which the tokenizer never accepts),
and the monochrome/classic post-processing facts hold. -/
structure Producible (c : GameConfig) : Prop where
  fps_lo : 1 ≤ c.fps
  fps_hi : c.fps ≤ U64_MAX
  bw_hi : c.board_width ≤ USIZE_MAX
  bh_hi : c.board_height ≤ USIZE_MAX
  bs_lo : 1 ≤ c.block_size
  bs_hi : c.block_size ≤ USIZE_MAX
  dims_w : c.block_size * 4 < c.board_width
  dims_h : c.block_size * 4 < c.board_height
  left_eq : c.left = D_LEFT
  right_eq : c.right = D_RIGHT
  rot_cw_eq : c.rot_cw = D_ROT_CW
  rot_acw_eq : c.rot_acw = D_ROT_ACW
  soft_drop_good : GoodKeyEvent c.soft_drop
  hard_drop_good : GoodOpt GoodKeyEvent c.hard_drop
  hold_good : GoodOpt GoodKeyEvent c.hold
  ghost_char_good : GoodOpt GoodChar c.ghost_tetromino_character
  ghost_color_good : GoodOpt GoodColor c.ghost_tetromino_color
  const_level_good : GoodOpt (fun n => 1 ≤ n ∧ n ≤ USIZE_MAX) c.const_level
  monochrome_good : GoodOpt GoodColor c.monochrome
  border_color_good : GoodColor c.border_color
  background_good : GoodColor c.background_color
  chars_good : GoodChar c.top_border_character ∧ GoodChar c.tl_corner_character ∧
    GoodChar c.left_border_character ∧ GoodChar c.bl_corner_character ∧
    GoodChar c.bottom_border_character ∧ GoodChar c.br_corner_character ∧
    GoodChar c.right_border_character ∧ GoodChar c.tr_corner_character ∧
    GoodChar c.block_character
  piece_colors_good : GoodColor c.i_color ∧ GoodColor c.j_color ∧
    GoodColor c.l_color ∧ GoodColor c.s_color ∧ GoodColor c.z_color ∧
    GoodColor c.t_color ∧ GoodColor c.o_color
  mono_pieces : ∀ m, c.monochrome = some m →
    c.i_color = m ∧ c.j_color = m ∧ c.l_color = m ∧ c.s_color = m ∧
    c.z_color = m ∧ c.t_color = m ∧ c.o_color = m
  classic_none : c.monochrome = none → c.mode = Mode.Classic →
    c.hard_drop = none ∧ c.hold = none ∧ c.ghost_tetromino_character = none ∧
    c.ghost_tetromino_color = none

/-- The settings table the tokenizer builds from well-formed
`key = value` lines numbered from `n`. -/
def tableFrom : Nat → List (Str × Str) → Settings
  | _, [] => []
  | n, (k, v) :: rest => (k, v, n, mkLine k v) :: tableFrom (n + 1) rest

/-- Whether the tokenizer skips a line (blank, or first character `#`). -/
def lineSkipped (line : Str) : Bool := line.isEmpty || line.head? == some '#'

/-- The trimmed key of a non-skipped line (the text left of the first
`=`, which on a line with no `=` is the whole line). -/
def lineKey (line : Str) : Option Str :=
  if lineSkipped line then none
  else some (trim ((splitChar '=' line).headD []))

/-- A line the tokenizer accepts in isolation: skipped, or splitting to
a recognized key and a nonempty value. -/
def lineOk (line : Str) : Bool :=
  lineSkipped line ||
    (match (splitChar '=' line).get? 1 with
     | some rhs0 => !(trim ((splitChar '=' line).headD [])).isEmpty &&
         !(trim rhs0).isEmpty &&
         CONFIG_OPTIONS.contains (trim ((splitChar '=' line).headD []))
     | none => false)

/-- The first line whose key repeats a key seen on an earlier
non-skipped line (the second of the two lines setting the same key). -/
def findDup : List Str → List (Nat × Str) → Option (Nat × Str)
  | _, [] => none
  | seen, (n, line) :: rest =>
    match lineKey line with
    | none => findDup seen rest
    | some k => if k ∈ seen then some (n, line) else findDup (k :: seen) rest

/-- A rendered value as the serializer writes it: nonempty, free of
`=`, and without leading or trailing whitespace, so that the tokenizer
recovers it verbatim. -/
def RenderGood (v : Str) : Prop :=
  v ≠ [] ∧ '=' ∉ v ∧ (∀ c ∈ v.head?, c.isWhitespace = false) ∧
    (∀ c ∈ v.getLast?, c.isWhitespace = false)

/-- Executable form of `RenderGood`. -/
def renderGoodB (v : Str) : Bool :=
  !v.isEmpty && v.all (fun c => !(c == '=')) &&
    v.head?.all (fun c => !c.isWhitespace) && v.getLast?.all (fun c => !c.isWhitespace)

/-- The settings table the tokenizer builds from a serialized record. -/
def tableOf (c : GameConfig) : Settings := tableFrom 0 (serPairs c)

/-- Invariant of every table the tokenizer returns: keys recognized, raw
values nonempty, trimmed and free of `=`. -/
def TableGood (m : Settings) : Prop :=
  ∀ e ∈ m, e.1 ∈ CONFIG_OPTIONS ∧ GoodRhs e.2.1

/-- Everything the success of `assemble tb = .ok c` reveals: each
unmodified field of `c` is exactly what its lookup helper returns, the
dimension check passed, and the post-processed fields follow one of the
three mutually exclusive branches (monochrome overwrite, classic-mode
stripping, or untouched). -/
structure AssembleInv (tb : Settings) (c : GameConfig) : Prop where
  fps_eq : parse_num_range tb (str "fps") D_FPS U64_MAX 1
    "Failed to parse FPS value."
    "FPS value is not greater than or equal to 1." = .ok c.fps
  bw_eq : parse_num_range tb (str "board_width") D_BOARD_WIDTH USIZE_MAX 1
    "Failed to parse board width value."
    "Board width value is not greater than or equal to 1." = .ok c.board_width
  bh_eq : parse_num_range tb (str "board_height") D_BOARD_HEIGHT USIZE_MAX 1
    "Failed to parse board height value."
    "Board height value is not greater than or equal to 1." = .ok c.board_height
  mode_eq : general_parse tb (str "mode") D_MODE parse_mode = .ok c.mode
  left_eq : general_parse tb (str "left") D_LEFT parse_keyevent = .ok c.left
  right_eq : general_parse tb (str "right") D_RIGHT parse_keyevent = .ok c.right
  rot_cw_eq : general_parse tb (str "rot_cw") D_ROT_CW parse_keyevent = .ok c.rot_cw
  rot_acw_eq : general_parse tb (str "rot_acw") D_ROT_ACW parse_keyevent = .ok c.rot_acw
  soft_drop_eq : general_parse tb (str "soft_drop") D_SOFT_DROP parse_keyevent =
    .ok c.soft_drop
  cascade_eq : general_parse tb (str "cascade") D_CASCADE parse_bool = .ok c.cascade
  const_level_eq : opt_parse_num_range tb (str "const_level") D_CONST_LEVEL USIZE_MAX 1
    "Failed to parse constant level value."
    "Level value was not greater than or equal to 1." = .ok c.const_level
  monochrome_eq : opt_general_parse tb (str "monochrome") D_MONOCHROME parse_color =
    .ok c.monochrome
  border_eq : general_parse tb (str "border_color") D_BORDER_COLOR parse_color =
    .ok c.border_color
  background_eq : general_parse tb (str "background_color") D_BACKGROUND_COLOR
    parse_color = .ok c.background_color
  tbc_eq : general_parse tb (str "top_border_character") D_TOP_BORDER_CHARACTER
    parse_char = .ok c.top_border_character
  tlc_eq : general_parse tb (str "tl_corner_character") D_TL_CORNER_CHARACTER
    parse_char = .ok c.tl_corner_character
  lbc_eq : general_parse tb (str "left_border_character") D_LEFT_BORDER_CHARACTER
    parse_char = .ok c.left_border_character
  blc_eq : general_parse tb (str "bl_corner_character") D_BL_CORNER_CHARACTER
    parse_char = .ok c.bl_corner_character
  bbc_eq : general_parse tb (str "bottom_border_character") D_BOTTOM_BORDER_CHARACTER
    parse_char = .ok c.bottom_border_character
  brc_eq : general_parse tb (str "br_corner_character") D_BR_CORNER_CHARACTER
    parse_char = .ok c.br_corner_character
  rbc_eq : general_parse tb (str "right_border_character") D_RIGHT_BORDER_CHARACTER
    parse_char = .ok c.right_border_character
  trc_eq : general_parse tb (str "tr_corner_character") D_TR_CORNER_CHARACTER
    parse_char = .ok c.tr_corner_character
  bchar_eq : general_parse tb (str "block_character") D_BLOCK_CHARACTER parse_char =
    .ok c.block_character
  bs_eq : parse_num_range tb (str "block_size") D_BLOCK_SIZE USIZE_MAX 1
    "Failed to parse block size value."
    "Block size must be greater than or equal to 1." = .ok c.block_size
  dims : ¬(c.board_width ≤ c.block_size * 4 ∨ c.board_height ≤ c.block_size * 4)
  modified : ∃ hd ho gch gcl ic jc lc sc zc tc oc,
    opt_general_parse tb (str "hard_drop") D_HARD_DROP parse_keyevent = .ok hd ∧
    opt_general_parse tb (str "hold") D_HOLD parse_keyevent = .ok ho ∧
    opt_general_parse tb (str "ghost_tetromino_character")
      D_GHOST_TETROMINO_CHARACTER parse_char = .ok gch ∧
    opt_general_parse tb (str "ghost_tetromino_color")
      D_GHOST_TETROMINO_COLOR parse_color = .ok gcl ∧
    general_parse tb (str "i_color") D_I_COLOR parse_color = .ok ic ∧
    general_parse tb (str "j_color") D_J_COLOR parse_color = .ok jc ∧
    general_parse tb (str "l_color") D_L_COLOR parse_color = .ok lc ∧
    general_parse tb (str "s_color") D_S_COLOR parse_color = .ok sc ∧
    general_parse tb (str "z_color") D_Z_COLOR parse_color = .ok zc ∧
    general_parse tb (str "t_color") D_T_COLOR parse_color = .ok tc ∧
    general_parse tb (str "o_color") D_O_COLOR parse_color = .ok oc ∧
    ((∃ m, c.monochrome = some m ∧ c.hard_drop = hd ∧ c.hold = ho ∧
        c.ghost_tetromino_character = gch ∧ c.ghost_tetromino_color = gcl ∧
        c.i_color = m ∧ c.j_color = m ∧ c.l_color = m ∧ c.s_color = m ∧
        c.z_color = m ∧ c.t_color = m ∧ c.o_color = m) ∨
      (c.monochrome = none ∧ c.mode = Mode.Classic ∧ c.hard_drop = none ∧
        c.hold = none ∧ c.ghost_tetromino_character = none ∧
        c.ghost_tetromino_color = none ∧ c.i_color = ic ∧ c.j_color = jc ∧
        c.l_color = lc ∧ c.s_color = sc ∧ c.z_color = zc ∧ c.t_color = tc ∧
        c.o_color = oc) ∨
      (c.monochrome = none ∧ ¬c.mode = Mode.Classic ∧ c.hard_drop = hd ∧
        c.hold = ho ∧ c.ghost_tetromino_character = gch ∧
        c.ghost_tetromino_color = gcl ∧ c.i_color = ic ∧ c.j_color = jc ∧
        c.l_color = lc ∧ c.s_color = sc ∧ c.z_color = zc ∧ c.t_color = tc ∧
        c.o_color = oc))

/-- A concrete record `parse` produces for a classic-mode file: the
defaults with classic mode and the hard-drop, hold and ghost-piece
features stripped. -/
def configClassic : GameConfig :=
  ⟨D_FPS, D_BOARD_WIDTH, D_BOARD_HEIGHT, Mode.Classic, D_LEFT, D_RIGHT,
   D_ROT_CW, D_ROT_ACW, D_SOFT_DROP, none, none, none, none, D_CASCADE,
   D_CONST_LEVEL, D_MONOCHROME, D_BORDER_COLOR, D_TOP_BORDER_CHARACTER,
   D_TL_CORNER_CHARACTER, D_LEFT_BORDER_CHARACTER, D_BL_CORNER_CHARACTER,
   D_BOTTOM_BORDER_CHARACTER, D_BR_CORNER_CHARACTER,
   D_RIGHT_BORDER_CHARACTER, D_TR_CORNER_CHARACTER, D_BACKGROUND_COLOR,
   D_BLOCK_CHARACTER, D_BLOCK_SIZE, D_I_COLOR, D_J_COLOR, D_L_COLOR,
   D_S_COLOR, D_Z_COLOR, D_T_COLOR, D_O_COLOR⟩

/-- A concrete record `parse` produces for a file with a monochrome
override and an explicit border color: the defaults with all seven piece
colors overwritten by the monochrome color. -/
def configMono : GameConfig :=
  ⟨D_FPS, D_BOARD_WIDTH, D_BOARD_HEIGHT, D_MODE, D_LEFT, D_RIGHT,
   D_ROT_CW, D_ROT_ACW, D_SOFT_DROP, D_HARD_DROP, D_HOLD,
   D_GHOST_TETROMINO_CHARACTER, D_GHOST_TETROMINO_COLOR, D_CASCADE,
   D_CONST_LEVEL, some (Color.Rgb 10 10 10), Color.AnsiValue 5,
   D_TOP_BORDER_CHARACTER, D_TL_CORNER_CHARACTER, D_LEFT_BORDER_CHARACTER,
   D_BL_CORNER_CHARACTER, D_BOTTOM_BORDER_CHARACTER, D_BR_CORNER_CHARACTER,
   D_RIGHT_BORDER_CHARACTER, D_TR_CORNER_CHARACTER, D_BACKGROUND_COLOR,
   D_BLOCK_CHARACTER, D_BLOCK_SIZE, Color.Rgb 10 10 10, Color.Rgb 10 10 10,
   Color.Rgb 10 10 10, Color.Rgb 10 10 10, Color.Rgb 10 10 10,
   Color.Rgb 10 10 10, Color.Rgb 10 10 10⟩

set_option maxRecDepth 4000 in
theorem checkRange_block0 : checkRange 0 504 = true := by decide

set_option maxRecDepth 4000 in
theorem checkRange_block1 : checkRange 504 504 = true := by decide

set_option maxRecDepth 4000 in
theorem checkRange_block2 : checkRange 1008 504 = true := by decide

set_option maxRecDepth 4000 in
theorem checkRange_block3 : checkRange 1512 504 = true := by decide

set_option maxRecDepth 4000 in
theorem checkRange_block4 : checkRange 2016 504 = true := by decide

set_option maxRecDepth 4000 in
theorem checkRange_block5 : checkRange 2520 504 = true := by decide

set_option maxRecDepth 4000 in
theorem checkRange_block6 : checkRange 3024 504 = true := by decide

set_option maxRecDepth 4000 in
theorem checkRange_block7 : checkRange 3528 504 = true := by decide

set_option maxRecDepth 4000 in
theorem checkRange_block8 : checkRange 4032 504 = true := by decide

set_option maxRecDepth 4000 in
theorem checkRange_block9 : checkRange 4536 504 = true := by decide

/-- Unfolding principle for `checkRange`. -/
theorem checkRange_spec :
    ∀ fuel lo, checkRange lo fuel = true →
      ∀ n, lo ≤ n → n < lo + fuel → decodeOK n = true := by
  intro fuel
  induction fuel with
  | zero => intro lo _ n h1 h2; omega
  | succ f ih =>
    intro lo h n h1 h2
    rw [checkRange, Bool.and_eq_true] at h
    rcases Nat.eq_or_lt_of_le h1 with heq | hlt
    · rw [← heq]; exact h.1
    · exact ih (lo + 1) h.2 n hlt (by omega)

/-- Exhaustive certification of `decodeOK` on the whole domain. -/
theorem decodeOK_all : ∀ n, n < 5040 → decodeOK n = true := by
  intro n hn
  by_cases h0 : n < 504
  · exact checkRange_spec 504 0 checkRange_block0 n (by omega) (by omega)
  by_cases h1 : n < 1008
  · exact checkRange_spec 504 504 checkRange_block1 n (by omega) (by omega)
  by_cases h2 : n < 1512
  · exact checkRange_spec 504 1008 checkRange_block2 n (by omega) (by omega)
  by_cases h3 : n < 2016
  · exact checkRange_spec 504 1512 checkRange_block3 n (by omega) (by omega)
  by_cases h4 : n < 2520
  · exact checkRange_spec 504 2016 checkRange_block4 n (by omega) (by omega)
  by_cases h5 : n < 3024
  · exact checkRange_spec 504 2520 checkRange_block5 n (by omega) (by omega)
  by_cases h6 : n < 3528
  · exact checkRange_spec 504 3024 checkRange_block6 n (by omega) (by omega)
  by_cases h7 : n < 4032
  · exact checkRange_spec 504 3528 checkRange_block7 n (by omega) (by omega)
  by_cases h8 : n < 4536
  · exact checkRange_spec 504 4032 checkRange_block8 n (by omega) (by omega)
  exact checkRange_spec 504 4536 checkRange_block9 n (by omega) (by omega)

/-- Helper: unpack `decodeOK` into its three component facts. -/
theorem decodeOK_spec {n : Nat} (h : decodeOK n = true) :
    ∃ l, decode_sequence_number n = some l ∧ encodeSeq l = n ∧
      ∀ t : Tetromino, l.count t = 1 := by
  unfold decodeOK at h
  cases hd : decode_sequence_number n with
  | none => rw [hd] at h; exact absurd h (by simp)
  | some l =>
    rw [hd] at h
    simp only [Bool.and_eq_true, beq_iff_eq, List.all_eq_true] at h
    refine ⟨l, rfl, h.1, fun t => ?_⟩
    have ht : t ∈ allTets := by cases t <;> simp [allTets]
    exact h.2 t ht

/-- On the domain, `decodeAt` agrees with the decoder and is undone by
`encodeSeq`. -/
theorem decodeAt_spec {n : Nat} (hn : n < 5040) :
    decode_sequence_number n = some (decodeAt n) ∧ encodeSeq (decodeAt n) = n ∧
      ∀ t : Tetromino, (decodeAt n).count t = 1 := by
  obtain ⟨l, hd, he, hc⟩ := decodeOK_spec (decodeOK_all n hn)
  have : decodeAt n = l := by rw [decodeAt, hd]; rfl
  rw [this]
  exact ⟨hd, he, hc⟩

/-- Every list containing each tetromino exactly once is hit by the
decoder: counting argument via the 5040 permutations of `allTets`. -/
theorem decode_surjective (l : List Tetromino) (hl : ∀ t : Tetromino, l.count t = 1) :
    ∃ n, n < 5040 ∧ decode_sequence_number n = some l := by
  classical
  have hS : (allTets.permutations.toFinset).card = 5040 := by
    rw [List.toFinset_card_of_nodup (List.nodup_permutations _ (by decide))]
    rw [List.length_permutations]
    decide
  have hinj : Set.InjOn decodeAt (Finset.range 5040 : Finset Nat) := by
    intro a ha b hb hab
    have ha5 : a < 5040 := Finset.mem_range.mp (by simpa using ha)
    have hb5 : b < 5040 := Finset.mem_range.mp (by simpa using hb)
    rw [← (decodeAt_spec ha5).2.1, ← (decodeAt_spec hb5).2.1, hab]
  have hsub : (Finset.range 5040).image decodeAt ⊆ allTets.permutations.toFinset := by
    intro x hx
    obtain ⟨n, hn, hxn⟩ := Finset.mem_image.mp hx
    have hn5 : n < 5040 := Finset.mem_range.mp hn
    rw [List.mem_toFinset, List.mem_permutations]
    rw [← hxn]
    rw [List.perm_iff_count]
    intro t
    rw [(decodeAt_spec hn5).2.2 t]
    cases t <;> rfl
  have hcard : ((Finset.range 5040).image decodeAt).card = 5040 := by
    rw [Finset.card_image_of_injOn hinj, Finset.card_range]
  have heq : (Finset.range 5040).image decodeAt = allTets.permutations.toFinset :=
    Finset.eq_of_subset_of_card_le hsub (by rw [hS, hcard])
  have hlmem : l ∈ allTets.permutations.toFinset := by
    rw [List.mem_toFinset, List.mem_permutations, List.perm_iff_count]
    intro t
    rw [hl t]
    cases t <;> rfl
  rw [← heq] at hlmem
  obtain ⟨n, hn, hnl⟩ := Finset.mem_image.mp hlmem
  have hn5 : n < 5040 := Finset.mem_range.mp hn
  refine ⟨n, hn5, ?_⟩
  rw [(decodeAt_spec hn5).1, hnl]

/-- C1: for every sequence index `n < 5040` the decoder returns an
ordering containing each of the 7 tetromino symbols exactly once (no
duplicates), decoding is injective on `[0, 5040)`, and every ordering of
the 7 symbols is the output at some index: the decoder is a bijection
between `[0, 5040)` and the 5040 orderings of the 7 symbols. -/
theorem decode_sequence_number_bijective :
    (∀ n, n < 5040 → ∃ l, decode_sequence_number n = some l ∧
        ∀ t : Tetromino, l.count t = 1) ∧
    (∀ m n, m < 5040 → n < 5040 → m ≠ n →
        decode_sequence_number m ≠ decode_sequence_number n) ∧
    (∀ l : List Tetromino, (∀ t : Tetromino, l.count t = 1) →
        ∃ n, n < 5040 ∧ decode_sequence_number n = some l) := by
  refine ⟨?_, ?_, decode_surjective⟩
  · intro n hn
    obtain ⟨l, hd, _, hc⟩ := decodeOK_spec (decodeOK_all n hn)
    exact ⟨l, hd, hc⟩
  · intro m n hm hn hmn heq
    obtain ⟨lm, hdm, hem, _⟩ := decodeOK_spec (decodeOK_all m hm)
    obtain ⟨ln, hdn, hen, _⟩ := decodeOK_spec (decodeOK_all n hn)
    rw [hdm, hdn] at heq
    exact hmn (by rw [← hem, ← hen, Option.some_inj.mp heq])

/-- C1 witness: the theorem applied at the concrete indices 0 and 5039
and at the concrete ordering `allTets`. -/
theorem decode_sequence_number_bijective_witness :
    (∃ l, decode_sequence_number 0 = some l ∧
        ∀ t : Tetromino, l.count t = 1) ∧
    decode_sequence_number 0 ≠ decode_sequence_number 5039 ∧
    (∃ n, n < 5040 ∧ decode_sequence_number n = some allTets) :=
  ⟨decode_sequence_number_bijective.1 0 (by decide),
   decode_sequence_number_bijective.2.1 0 5039 (by decide) (by decide)
     (by decide),
   decode_sequence_number_bijective.2.2 allTets (by decide)⟩

/-- C3 counterexample: at the out-of-domain input 5040 the decoder does
not fail explicitly — it reaches the `unsafe unreachable_unchecked()`
arm of the first range match (modelled as `none`, i.e. undefined
behaviour), contradicting the claim that out-of-domain indices are
rejected with an explicit failure and never hit an unreachable branch. -/
theorem decode_out_of_domain_hits_unreachable :
    decode_sequence_number 5040 = none := by decide

/-- C3 (amended): every input outside `[0, 5040)` reaches the
`unreachable_unchecked()` arm of the first range match (undefined
behaviour, modelled as `none`) rather than an explicit failure, while
inputs inside the domain never reach any unreachable arm. -/
theorem decode_domain_behavior :
    (∀ n, 5040 ≤ n → decode_sequence_number n = none) ∧
    (∀ n, n < 5040 → (decode_sequence_number n).isSome = true) := by
  constructor
  · intro n hn
    have hp : pick720 n = none := by
      unfold pick720
      rw [if_neg (by omega), if_neg (by omega), if_neg (by omega),
        if_neg (by omega), if_neg (by omega), if_neg (by omega),
        if_neg (by omega)]
    unfold decode_sequence_number
    rw [hp]
  · intro n hn
    obtain ⟨l, hd, _, _⟩ := decodeOK_spec (decodeOK_all n hn)
    rw [hd]
    rfl

/-- C3 witness: the amended theorem applied at the concrete inputs 6000
(out of domain) and 7 (in domain). -/
theorem decode_domain_behavior_witness :
    decode_sequence_number 6000 = none ∧
    (decode_sequence_number 7).isSome = true :=
  ⟨decode_domain_behavior.1 6000 (by decide),
   decode_domain_behavior.2 7 (by decide)⟩

/-- C4: the code drops any configured movement/rotation binding.  At the
failing input `move_left = esc` the parse succeeds, yet the resulting
record's move-left binding is the compiled-in default `Left`, not `Esc`:
the assembler looks the field up under the key `left`, which the
tokenizer never inserts (the recognized key is `move_left`), so the
parsed value can never reach the record.  `CONFIG_OPTIONS`, the
serializer and the surrounding documentation all use `move_left`, so the
lookup key is a slip in the code. -/
theorem move_left_setting_ignored :
    (GameConfig.parse [str "move_left = esc"]).map GameConfig.left =
      Except.ok KeyEvent.Left ∧ KeyEvent.Left ≠ KeyEvent.Esc := by decide

/-- C5 counterexample: a file setting `mode = classic` together with a
monochrome override parses successfully, yet hard drop, hold and both
ghost fields keep their (non-absent) defaults: the monochrome branch and
the classic-mode stripping are mutually exclusive `else` branches, so
the claimed stripping does not happen when a monochrome override is
present. -/
theorem classic_with_monochrome_keeps_features :
    (GameConfig.parse [str "mode = classic", str "monochrome = rgb 10,10,10"]).map
        GameConfig.mode = Except.ok Mode.Classic ∧
    (GameConfig.parse [str "mode = classic", str "monochrome = rgb 10,10,10"]).map
        GameConfig.hard_drop = Except.ok (some (KeyEvent.Char ' ')) ∧
    (GameConfig.parse [str "mode = classic", str "monochrome = rgb 10,10,10"]).map
        GameConfig.hold = Except.ok (some (KeyEvent.Char 'c')) ∧
    (GameConfig.parse [str "mode = classic", str "monochrome = rgb 10,10,10"]).map
        GameConfig.ghost_tetromino_character = Except.ok (some '□') ∧
    (GameConfig.parse [str "mode = classic", str "monochrome = rgb 10,10,10"]).map
        GameConfig.ghost_tetromino_color =
      Except.ok (some (Color.Rgb 240 240 240)) := by decide

/-- C6 counterexample: for the file `board_width = 3` (line 0) plus
`block_size = 1` (line 1), the parse fails with `InvalidValue` whose
line number (1) and line text are those of the `block_size` line — not
the `board_width` line as the claim states: the attribution preference
order checks `block_size` first. -/
theorem board_width_error_not_on_board_width_line :
    GameConfig.parse [str "board_width = 3", str "block_size = 1"] =
      Except.error (ParseError.new .InvalidValue 1 (str "block_size = 1")
        (some "Board dimensions must be greater than or equal to block size.")) := by
  decide

/-- C6 (amended): a config file containing `board_width = 3` and
`block_size = 1` (board height left at its default 20) fails with an
`InvalidValue` error whose line number and line text are those of the
`block_size` line (the first key present in the preference order
`block_size`, `board_height`, `board_width`), in either line order. -/
theorem board_width_block_size_error_attribution :
    GameConfig.parse [str "board_width = 3", str "block_size = 1"] =
      Except.error (ParseError.new .InvalidValue 1 (str "block_size = 1")
        (some "Board dimensions must be greater than or equal to block size.")) ∧
    GameConfig.parse [str "block_size = 1", str "board_width = 3"] =
      Except.error (ParseError.new .InvalidValue 0 (str "block_size = 1")
        (some "Board dimensions must be greater than or equal to block size.")) := by
  decide

/-- C8 counterexample: this file contains two non-skipped lines that
both set the recognized key `fps` (lines 1 and 2), yet the parse fails
with `InvalidLineFormat` for the earlier malformed line 0, not with
`DuplicateSetting` at the second `fps` line: an earlier tokenizer error
preempts the duplicate check. -/
theorem duplicate_fps_after_malformed_line :
    GameConfig.parse [str "foo", str "fps = 1", str "fps = 2"] =
      Except.error (ParseError.new .InvalidLineFormat 0 (str "foo") none) := by
  decide

/-! ### String lemmas -/

theorem splitCharAux_of_not_mem {sep : Char} {s : Str} (acc : Str) (h : sep ∉ s) :
    splitCharAux sep s acc = [acc.reverse ++ s] := by
  induction s generalizing acc with
  | nil => simp [splitCharAux]
  | cons c rest ih =>
    have hc : ¬c = sep := fun he => h (he ▸ List.mem_cons_self c rest)
    rw [splitCharAux, if_neg hc, ih (c :: acc) (fun hm => h (List.mem_cons_of_mem _ hm))]
    simp

theorem splitCharAux_append {sep : Char} {a : Str} (b acc : Str) (h : sep ∉ a) :
    splitCharAux sep (a ++ sep :: b) acc =
      (acc.reverse ++ a) :: splitCharAux sep b [] := by
  induction a generalizing acc with
  | nil => simp [splitCharAux]
  | cons c rest ih =>
    have hc : ¬c = sep := fun he => h (he ▸ List.mem_cons_self c rest)
    rw [List.cons_append, splitCharAux, if_neg hc,
      ih (c :: acc) (fun hm => h (List.mem_cons_of_mem _ hm))]
    simp

theorem splitChar_of_not_mem {sep : Char} {s : Str} (h : sep ∉ s) :
    splitChar sep s = [s] := by
  rw [splitChar, splitCharAux_of_not_mem [] h]
  rfl

theorem splitChar_append {sep : Char} {a : Str} (b : Str) (h : sep ∉ a) :
    splitChar sep (a ++ sep :: b) = a :: splitChar sep b := by
  rw [splitChar, splitCharAux_append b [] h]
  rfl

theorem splitCharAux_ne_nil (sep : Char) (s acc : Str) :
    splitCharAux sep s acc ≠ [] := by
  induction s generalizing acc with
  | nil => simp [splitCharAux]
  | cons c rest ih =>
    rw [splitCharAux]
    split
    · simp
    · exact ih _

theorem splitChar_ne_nil (sep : Char) (s : Str) : splitChar sep s ≠ [] :=
  splitCharAux_ne_nil sep s []

theorem splitCharAux_parts_not_mem {sep : Char} :
    ∀ (s acc : Str), sep ∉ acc → ∀ p ∈ splitCharAux sep s acc, sep ∉ p := by
  intro s
  induction s with
  | nil =>
    intro acc hacc p hp
    rw [splitCharAux, List.mem_singleton] at hp
    subst hp
    rw [List.mem_reverse]
    exact hacc
  | cons c rest ih =>
    intro acc hacc p hp
    rw [splitCharAux] at hp
    by_cases hc : c = sep
    · rw [if_pos hc, List.mem_cons] at hp
      rcases hp with hp | hp
      · subst hp; rw [List.mem_reverse]; exact hacc
      · exact ih [] (by simp) p hp
    · rw [if_neg hc] at hp
      exact ih (c :: acc) (by
        intro hm
        rcases List.mem_cons.mp hm with hm | hm
        · exact hc hm.symm
        · exact hacc hm) p hp

theorem splitChar_parts_not_mem {sep : Char} {s : Str} :
    ∀ p ∈ splitChar sep s, sep ∉ p :=
  splitCharAux_parts_not_mem s [] (by simp)

theorem dropWhile_eq_self_of_head {p : Char → Bool} {l : Str}
    (h : ∀ c ∈ l.head?, p c = false) : l.dropWhile p = l := by
  cases l with
  | nil => rfl
  | cons c rest =>
    have hc := h c (by simp)
    simp [List.dropWhile_cons, hc]

theorem head?_dropWhile_false (p : Char → Bool) (l : Str) :
    ∀ c ∈ (l.dropWhile p).head?, p c = false := by
  intro c hc
  have h := List.head?_dropWhile_not p l
  cases hd : (l.dropWhile p).head? with
  | none => rw [hd] at hc; exact absurd hc (by simp)
  | some x =>
    rw [hd] at hc h
    rw [Option.mem_def, Option.some_inj] at hc
    subst hc
    exact h

theorem trim_cons_of_ws {c : Char} {v : Str} (h : c.isWhitespace = true) :
    trim (c :: v) = trim v := by
  simp [trim, List.dropWhile_cons, h]

theorem trim_eq_self {v : Str} (h1 : ∀ c ∈ v.head?, c.isWhitespace = false)
    (h2 : ∀ c ∈ v.getLast?, c.isWhitespace = false) : trim v = v := by
  rw [trim, dropWhile_eq_self_of_head h1, dropWhile_eq_self_of_head, List.reverse_reverse]
  intro c hc
  rw [List.head?_reverse] at hc
  exact h2 c hc

theorem trim_last_ws (v : Str) : ∀ c ∈ (trim v).getLast?, c.isWhitespace = false := by
  intro c hc
  rw [trim, List.getLast?_reverse] at hc
  exact head?_dropWhile_false _ _ c hc

theorem trim_head_ws (v : Str) : ∀ c ∈ (trim v).head?, c.isWhitespace = false := by
  induction v with
  | nil => simp [trim]
  | cons a rest ih =>
    by_cases ha : a.isWhitespace
    · rw [trim_cons_of_ws ha]; exact ih
    · intro c hc
      have ha2 : a.isWhitespace = false := by
        cases h : a.isWhitespace
        · rfl
        · exact absurd h ha
      have hdw : List.dropWhile Char.isWhitespace (a :: rest) = a :: rest :=
        dropWhile_eq_self_of_head (by simp [ha2])
      rw [trim, hdw, List.reverse_cons, List.dropWhile_append] at hc
      split at hc
      · simp only [List.dropWhile_cons, ha2, Bool.false_eq_true, if_false] at hc
        simp at hc
        rw [← hc]
        exact ha2
      · rw [List.reverse_append] at hc
        simp at hc
        rw [← hc]
        exact ha2

theorem trim_trim (v : Str) : trim (trim v) = trim v :=
  trim_eq_self (trim_head_ws v) (trim_last_ws v)

theorem trim_subset {v : Str} {c : Char} (h : c ∈ trim v) : c ∈ v := by
  rw [trim, List.mem_reverse] at h
  have h2 := (List.dropWhile_sublist _).subset h
  rw [List.mem_reverse] at h2
  exact (List.dropWhile_sublist _).subset h2

theorem trim_all_ws {v : Str} (h : ∀ c ∈ v, c.isWhitespace = true) : trim v = [] := by
  have : v.dropWhile Char.isWhitespace = [] := List.dropWhile_eq_nil_iff.mpr h
  rw [trim, this]
  rfl

/-- The tokenizer skips blank lines and comment lines. -/
theorem tokenize_skip {n : Nat} {line : Str} {rest : List (Nat × Str)} {acc : Settings}
    (h : line.isEmpty = true ∨ line.head? = some '#') :
    tokenize ((n, line) :: rest) acc = tokenize rest acc := by
  rcases h with h | h
  · rw [tokenize, h]
    simp
  · rw [tokenize, h]
    simp

/-- C10: a line consisting only of whitespace characters is not skipped
as a blank line — its trimmed left-hand side is empty, so the parser
returns `InvalidLineFormat` for it; and the tokenizer skips exactly the
lines of zero length and the lines whose first character is `#`. -/
theorem whitespace_line_not_skipped :
    (∀ line : Str, line ≠ [] → (∀ c ∈ line, c.isWhitespace = true) →
      GameConfig.parse [line] =
        Except.error (ParseError.new .InvalidLineFormat 0 line
          (some "There must be a setting name on the left side of the equals sign."))) ∧
    (∀ (n : Nat) (line : Str) (rest : List (Nat × Str)) (acc : Settings),
      (line.isEmpty = true ∨ line.head? = some '#') →
      tokenize ((n, line) :: rest) acc = tokenize rest acc) := by
  constructor
  · intro line hne hws
    have h1 : line.isEmpty = false := by
      cases line with
      | nil => exact absurd rfl hne
      | cons a l => rfl
    have hsharp : ¬line.head? = some '#' := by
      cases line with
      | nil => simp
      | cons a l =>
        intro he
        rw [List.head?_cons, Option.some_inj] at he
        have ha := hws a (List.mem_cons_self a l)
        rw [he] at ha
        exact absurd ha (by decide)
    have heq : splitChar '=' line = [line] := by
      apply splitChar_of_not_mem
      intro hm
      exact absurd (hws '=' hm) (by decide)
    have htrim : trim line = [] := trim_all_ws hws
    have htok : tokenize (List.enum [line]) [] =
        Except.error (ParseError.new .InvalidLineFormat 0 line
          (some "There must be a setting name on the left side of the equals sign.")) := by
      show tokenize [(0, line)] [] = _
      rw [tokenize]
      rw [h1]
      simp only [Bool.false_eq_true, if_false]
      rw [if_neg hsharp, heq]
      simp only [List.get?]
      rw [htrim]
      simp
    rw [GameConfig.parse, htok]
  · intro n line rest acc h
    exact tokenize_skip h

/-- C10 witness: the theorem applied to the single-space line and to a
concrete skipped comment line. -/
theorem whitespace_line_not_skipped_witness :
    GameConfig.parse [str " "] =
      Except.error (ParseError.new .InvalidLineFormat 0 (str " ")
        (some "There must be a setting name on the left side of the equals sign.")) ∧
    tokenize [(3, str "# note"), (4, str "fps = 2")] [] =
      tokenize [(4, str "fps = 2")] [] :=
  ⟨whitespace_line_not_skipped.1 (str " ") (by decide) (by decide),
   whitespace_line_not_skipped.2 3 (str "# note") [(4, str "fps = 2")] []
     (Or.inr (by decide))⟩

/-- C9: a non-comment line of the shape `a=b=c` — where `a` (before the
first `=`) trims to a recognized key and `b` (between the first and
second `=`) trims to a nonempty value — is accepted by the tokenizer
with `trim b` as the raw value; the text from the second `=` onward is
never inspected and no `InvalidLineFormat` is reported for it. -/
theorem tokenizer_ignores_after_second_equals (a b c : Str)
    (ha : '=' ∉ a) (hb : '=' ∉ b)
    (hkey : trim a ∈ CONFIG_OPTIONS) (hval : trim b ≠ [])
    (hhead : ¬(a ++ '=' :: (b ++ '=' :: c)).head? = some '#') :
    tokenize (List.enum [a ++ '=' :: (b ++ '=' :: c)]) [] =
      Except.ok [(trim a, trim b, 0, a ++ '=' :: (b ++ '=' :: c))] := by
  have hne : (a ++ '=' :: (b ++ '=' :: c)).isEmpty = false := by
    cases a <;> rfl
  have hsplit : splitChar '=' (a ++ '=' :: (b ++ '=' :: c)) =
      a :: b :: splitChar '=' c := by
    rw [splitChar_append _ ha, splitChar_append _ hb]
  have hkeyne : (trim a).isEmpty = false := by
    have : ∀ k ∈ CONFIG_OPTIONS, k.isEmpty = false := by decide
    exact this _ hkey
  have hvalne : (trim b).isEmpty = false := by
    cases hv : trim b with
    | nil => exact absurd hv hval
    | cons x xs => rfl
  have hcontains : CONFIG_OPTIONS.contains (trim a) = true := by
    exact List.elem_eq_true_of_mem hkey
  show tokenize [(0, a ++ '=' :: (b ++ '=' :: c))] [] = _
  rw [tokenize, hne]
  simp only [Bool.false_eq_true, if_false]
  rw [if_neg hhead, hsplit]
  simp only [List.get?]
  rw [hkeyne]
  simp only [Bool.false_eq_true, if_false]
  rw [hvalne]
  simp only [Bool.false_eq_true, if_false]
  rw [hcontains]
  simp [tokenize, settingsGet]

/-- C9 witness: the theorem applied to the concrete line
`fps = 1 = 2`, accepted with raw value `1`. -/
theorem tokenizer_ignores_after_second_equals_witness :
    tokenize (List.enum [str "fps " ++ '=' :: (str " 1 " ++ '=' :: str " 2")]) [] =
      Except.ok [(trim (str "fps "), trim (str " 1 "), 0,
        str "fps " ++ '=' :: (str " 1 " ++ '=' :: str " 2"))] :=
  tokenizer_ignores_after_second_equals (str "fps ") (str " 1 ") (str " 2")
    (by decide) (by decide) (by decide) (by decide) (by decide)

/-! ### Duplicate detection (C8) -/

theorem bool_not_true {b : Bool} (h : (!b) = true) : b = false := by
  cases b
  · rfl
  · exact absurd h (by simp)

theorem settingsGet_append_isSome (acc : Settings) (k0 : Str) (v : Str × Nat × Str)
    (k : Str) :
    (settingsGet (acc ++ [(k0, v)]) k).isSome = true ↔
      (settingsGet acc k).isSome = true ∨ k0 = k := by
  induction acc with
  | nil =>
    show (if k0 = k then some v else none).isSome = true ↔ _
    split
    · simp [settingsGet]
      assumption
    · simp [settingsGet]
      intro h
      exact absurd h (by assumption)
  | cons e rest ih =>
    obtain ⟨k1, v1⟩ := e
    show (if k1 = k then some v1 else settingsGet (rest ++ [(k0, v)]) k).isSome = true ↔
      (if k1 = k then some v1 else settingsGet rest k).isSome = true ∨ k0 = k
    split
    · simp
    · exact ih

theorem mem_enumFrom_snd {α : Type} :
    ∀ (ls : List α) (n : Nat) (p : Nat × α), p ∈ List.enumFrom n ls → p.2 ∈ ls := by
  intro ls
  induction ls with
  | nil => intro n p hp; simp [List.enumFrom] at hp
  | cons a rest ih =>
    intro n p hp
    rw [List.enumFrom, List.mem_cons] at hp
    rcases hp with hp | hp
    · subst hp; exact List.mem_cons_self _ _
    · exact List.mem_cons_of_mem _ (ih (n + 1) p hp)

/-- On a list of individually acceptable lines, the tokenizer fails with
`DuplicateSetting` exactly at the line `findDup` points to. -/
theorem tokenize_dup :
    ∀ (lst : List (Nat × Str)) (seen : List Str) (acc : Settings),
    (∀ p ∈ lst, lineOk p.2 = true) →
    (∀ k : Str, (settingsGet acc k).isSome = true ↔ k ∈ seen) →
    ∀ n line, findDup seen lst = some (n, line) →
    tokenize lst acc = Except.error (ParseError.new .DuplicateSetting n line none) := by
  intro lst
  induction lst with
  | nil =>
    intro seen acc _ _ n line h
    rw [findDup] at h
    exact absurd h (by simp)
  | cons p rest ih =>
    obtain ⟨num, ln⟩ := p
    intro seen acc hok hinv n line hfd
    have hok1 : lineOk ln = true := hok (num, ln) (List.mem_cons_self _ _)
    by_cases hskip : lineSkipped ln = true
    · have hlk : lineKey ln = none := by rw [lineKey, if_pos hskip]
      rw [findDup, hlk] at hfd
      rw [tokenize_skip (by
        rw [lineSkipped, Bool.or_eq_true] at hskip
        rcases hskip with h | h
        · exact Or.inl h
        · exact Or.inr (by rwa [beq_iff_eq] at h))]
      exact ih seen acc (fun q hq => hok q (List.mem_cons_of_mem _ hq)) hinv n line hfd
    · have hskip2 : lineSkipped ln = false := by
        cases h : lineSkipped ln
        · rfl
        · exact absurd h hskip
      have hpieces := hskip2
      rw [lineSkipped, Bool.or_eq_false_iff] at hpieces
      obtain ⟨hempty, hsharp0⟩ := hpieces
      have hsharp : ¬ln.head? = some '#' := by
        intro he
        rw [← beq_iff_eq (a := ln.head?) (b := some '#')] at he
        rw [hsharp0] at he
        exact absurd he (by simp)
      cases hsc : splitChar '=' ln with
      | nil => exact absurd hsc (splitChar_ne_nil '=' ln)
      | cons s0 srest =>
        have hok2 : lineOk ln = true := hok1
        rw [lineOk, hskip2, Bool.false_or, hsc] at hok2
        rw [show (s0 :: srest).get? 1 = srest.get? 0 from rfl] at hok2
        cases hr : srest.get? 0 with
        | none =>
          rw [hr] at hok2
          exact absurd hok2 (by simp)
        | some rhs0 =>
          rw [hr] at hok2
          rw [show (s0 :: srest).headD [] = s0 from rfl] at hok2
          rw [Bool.and_eq_true, Bool.and_eq_true] at hok2
          obtain ⟨⟨hlhs0, hrhs0⟩, hcont⟩ := hok2
          have hlhs : (trim s0).isEmpty = false := bool_not_true hlhs0
          have hrhs : (trim rhs0).isEmpty = false := bool_not_true hrhs0
          have hlk : lineKey ln = some (trim s0) := by
            rw [lineKey, if_neg hskip, hsc]
            rfl
          rw [findDup] at hfd
          simp only [hlk] at hfd
          rw [tokenize, hempty]
          simp only [Bool.false_eq_true, if_false]
          rw [if_neg hsharp, hsc]
          simp only [List.get?]
          rw [hlhs]
          simp only [Bool.false_eq_true, if_false]
          simp only [hr]
          rw [hrhs]
          simp only [Bool.false_eq_true, if_false]
          rw [if_pos hcont]
          by_cases hmem : trim s0 ∈ seen
          · rw [if_pos hmem] at hfd
            rw [Option.some_inj, Prod.mk.injEq] at hfd
            obtain ⟨h1, h2⟩ := hfd
            rw [if_pos (hinv (trim s0) |>.mpr hmem), h1, h2]
          · rw [if_neg hmem] at hfd
            rw [if_neg (by
              intro hs
              exact hmem ((hinv (trim s0)).mp hs))]
            refine ih (trim s0 :: seen) (acc ++ [(trim s0, trim rhs0, num, ln)])
              (fun q hq => hok q (List.mem_cons_of_mem _ hq)) ?_ n line hfd
            intro k
            rw [settingsGet_append_isSome, hinv k, List.mem_cons]
            constructor
            · intro h
              rcases h with h | h
              · exact Or.inr h
              · exact Or.inl h.symm
            · intro h
              rcases h with h | h
              · exact Or.inr h.symm
              · exact Or.inl h

/-- C8 (amended): for every config file in which each line is either
skipped or sets a recognized key with a nonempty value — so that no
other tokenizer error preempts the duplicate check — and in which some
recognized key is set by two non-skipped lines, `GameConfig.parse` fails
with a `DuplicateSetting` error carrying the line number and full line
text of the first line whose key was already seen (the second of the two
lines setting that key), as computed by `findDup`. -/
theorem duplicate_setting_reported_at_second_line (ls : List Str)
    (hok : ∀ l ∈ ls, lineOk l = true) (n : Nat) (line : Str)
    (hfd : findDup [] (List.enum ls) = some (n, line)) :
    GameConfig.parse ls = Except.error (ParseError.new .DuplicateSetting n line none) := by
  have htok := tokenize_dup (List.enum ls) [] []
    (fun p hp => hok p.2 (mem_enumFrom_snd ls 0 p hp))
    (by intro k; simp [settingsGet]) n line hfd
  rw [GameConfig.parse, htok]

/-- C8 witness: the amended theorem applied to the concrete file
`fps = 1` / `fps = 2`, which fails at the second line. -/
theorem duplicate_setting_reported_witness :
    GameConfig.parse [str "fps = 1", str "fps = 2"] =
      Except.error (ParseError.new .DuplicateSetting 1 (str "fps = 2") none) :=
  duplicate_setting_reported_at_second_line [str "fps = 1", str "fps = 2"]
    (by decide) 1 (str "fps = 2") (by decide)

/-! ### Decimal rendering round-trip -/


theorem natDigitsAux_unfold (n : Nat) (acc : Str) :
    natDigitsAux n acc = if n < 10 then Nat.digitChar (n % 10) :: acc
      else natDigitsAux (n / 10) (Nat.digitChar (n % 10) :: acc) := by
  rw [natDigitsAux]

theorem natDigitsAux_append (n : Nat) :
    ∀ acc : Str, natDigitsAux n acc = natDigitsAux n [] ++ acc := by
  induction n using Nat.strong_induction_on with
  | _ n ih =>
    intro acc
    by_cases h : n < 10
    · rw [natDigitsAux_unfold, if_pos h, natDigitsAux_unfold, if_pos h]
      simp
    · have hd : n / 10 < n := Nat.div_lt_self (by omega) (by omega)
      rw [natDigitsAux_unfold, if_neg h, natDigitsAux_unfold n [], if_neg h,
        ih (n / 10) hd (Nat.digitChar (n % 10) :: acc),
        ih (n / 10) hd [Nat.digitChar (n % 10)]]
      simp

theorem natToStr_unfold (n : Nat) :
    natToStr n = if n < 10 then [Nat.digitChar (n % 10)]
      else natToStr (n / 10) ++ [Nat.digitChar (n % 10)] := by
  by_cases h : n < 10
  · rw [natToStr, natDigitsAux_unfold, if_pos h, if_pos h]
  · rw [natToStr, natDigitsAux_unfold, if_neg h, if_neg h, natToStr,
      natDigitsAux_append (n / 10) [Nat.digitChar (n % 10)]]

theorem digitChar_mem (m : Nat) (h : m < 10) : Nat.digitChar m ∈ str "0123456789" := by
  revert h
  revert m
  decide

theorem natToStr_mem (n : Nat) : ∀ c ∈ natToStr n, c ∈ str "0123456789" := by
  induction n using Nat.strong_induction_on with
  | _ n ih =>
    intro c hc
    rw [natToStr_unfold] at hc
    by_cases h : n < 10
    · rw [if_pos h, List.mem_singleton] at hc
      subst hc
      exact digitChar_mem _ (Nat.mod_lt n (by omega))
    · rw [if_neg h, List.mem_append] at hc
      rcases hc with hc | hc
      · exact ih (n / 10) (Nat.div_lt_self (by omega) (by omega)) c hc
      · rw [List.mem_singleton] at hc
        subst hc
        exact digitChar_mem _ (Nat.mod_lt n (by omega))

theorem natToStr_ne_nil (n : Nat) : natToStr n ≠ [] := by
  rw [natToStr_unfold]
  split
  · simp
  · simp

theorem decimalValue_append (l : Str) (c : Char) (a : Nat) :
    List.foldl (fun a c => a * 10 + (c.toNat - 48)) a (l ++ [c]) =
      (List.foldl (fun a c => a * 10 + (c.toNat - 48)) a l) * 10 + (c.toNat - 48) := by
  rw [List.foldl_append]
  rfl

theorem digitChar_toNat (m : Nat) (h : m < 10) : (Nat.digitChar m).toNat - 48 = m := by
  revert h
  revert m
  decide

theorem decimalValue_natToStr_aux (n : Nat) :
    ∀ a : Nat, List.foldl (fun a c => a * 10 + (c.toNat - 48)) a (natToStr n) =
      a * 10 ^ (natToStr n).length + n := by
  induction n using Nat.strong_induction_on with
  | _ n ih =>
    intro a
    rw [natToStr_unfold]
    by_cases h : n < 10
    · rw [if_pos h]
      simp [digitChar_toNat n (by omega), Nat.mod_eq_of_lt h]
    · rw [if_neg h]
      rw [decimalValue_append, ih (n / 10) (Nat.div_lt_self (by omega) (by omega)) a,
        digitChar_toNat (n % 10) (Nat.mod_lt n (by omega))]
      rw [List.length_append, List.length_singleton, pow_succ]
      have := Nat.div_add_mod n 10
      ring_nf
      omega

theorem decimalValue_natToStr (n : Nat) : decimalValue (natToStr n) = n := by
  rw [decimalValue, decimalValue_natToStr_aux n 0]
  simp

theorem natToStr_all_digits (n : Nat) : (natToStr n).all Char.isDigit = true := by
  rw [List.all_eq_true]
  intro c hc
  have hdec : ∀ c ∈ str "0123456789", c.isDigit = true := by decide
  exact hdec c (natToStr_mem n c hc)

theorem parseUIntRaw_digits {s : Str} (hne : s.isEmpty = false)
    (hall : s.all Char.isDigit = true) (hplus : ¬s.head? = some '+') :
    parseUIntRaw s = some (decimalValue s) := by
  rw [parseUIntRaw]
  simp only [if_neg hplus]
  rw [hne]
  simp only [Bool.false_eq_true, if_false]
  rw [hall]
  simp

theorem parseUIntRaw_natToStr (n : Nat) : parseUIntRaw (natToStr n) = some n := by
  have hne : (natToStr n).isEmpty = false := by
    cases hd : natToStr n with
    | nil => exact absurd hd (natToStr_ne_nil n)
    | cons c cs => rfl
  have hplus : ¬(natToStr n).head? = some '+' := by
    cases hd : natToStr n with
    | nil => simp
    | cons c cs =>
      have hc : c ∈ str "0123456789" := natToStr_mem n c (by rw [hd]; simp)
      have hnp : ∀ x ∈ str "0123456789", ¬x = '+' := by decide
      simp only [List.head?_cons, Option.some_inj]
      exact hnp c hc
  rw [parseUIntRaw_digits hne (natToStr_all_digits n) hplus, decimalValue_natToStr]

theorem parseUInt_natToStr {bound n : Nat} (h : n ≤ bound) :
    parseUInt bound (natToStr n) = some n := by
  rw [parseUInt, parseUIntRaw_natToStr]
  simp [h]

/-! ### Rendered values are recovered verbatim by the tokenizer -/

theorem mem_of_mem_getLast? {l : Str} {c : Char} (h : c ∈ l.getLast?) : c ∈ l := by
  rw [← List.head?_reverse] at h
  exact List.mem_reverse.mp (List.mem_of_mem_head? h)

theorem digits_not_ws : ∀ c ∈ str "0123456789", c.isWhitespace = false := by decide

theorem digits_ne_eq : ∀ c ∈ str "0123456789", ¬c = '=' := by decide

theorem digits_ne_comma : ∀ c ∈ str "0123456789", ¬c = ',' := by decide

theorem digits_lower_ne_n : ∀ c ∈ str "0123456789", ¬Char.toLower c = 'n' := by decide

theorem renderGood_of_B {v : Str} (h : renderGoodB v = true) : RenderGood v := by
  rw [renderGoodB, Bool.and_eq_true, Bool.and_eq_true, Bool.and_eq_true] at h
  obtain ⟨⟨⟨h1, h2⟩, h3⟩, h4⟩ := h
  refine ⟨?_, ?_, ?_, ?_⟩
  · intro he
    subst he
    exact absurd h1 (by simp)
  · intro hm
    have := List.all_eq_true.mp h2 '=' hm
    simp at this
  · intro c hc
    cases hh : v.head? with
    | none => rw [hh] at hc; exact absurd hc (by simp)
    | some a =>
      rw [hh] at hc h3
      rw [Option.mem_def, Option.some_inj] at hc
      subst hc
      exact bool_not_true h3
  · intro c hc
    cases hh : v.getLast? with
    | none => rw [hh] at hc; exact absurd hc (by simp)
    | some a =>
      rw [hh] at hc h4
      rw [Option.mem_def, Option.some_inj] at hc
      subst hc
      exact bool_not_true h4

theorem RenderGood_natToStr (n : Nat) : RenderGood (natToStr n) := by
  refine ⟨natToStr_ne_nil n, ?_, ?_, ?_⟩
  · intro hm
    exact digits_ne_eq '=' (natToStr_mem n '=' hm) rfl
  · intro c hc
    exact digits_not_ws c (natToStr_mem n c (List.mem_of_mem_head? hc))
  · intro c hc
    exact digits_not_ws c (natToStr_mem n c (mem_of_mem_getLast? hc))

theorem RenderGood_mode (m : Mode) : RenderGood (mode_string m) := by
  cases m
  · exact renderGood_of_B (by decide)
  · exact renderGood_of_B (by decide)

theorem RenderGood_bool (b : Bool) : RenderGood (bool_string b) := by
  cases b
  · exact renderGood_of_B (by decide)
  · exact renderGood_of_B (by decide)

theorem RenderGood_char {c : Char} (h : GoodChar c) : RenderGood [c] := by
  refine ⟨by simp, ?_, ?_, ?_⟩
  · intro hm
    rw [List.mem_singleton] at hm
    exact h.2 hm.symm
  · intro x hx
    rw [show ([c] : Str).head? = some c from rfl] at hx
    rw [Option.mem_def, Option.some_inj] at hx
    subst hx
    exact h.1
  · intro x hx
    rw [show ([c] : Str).getLast? = some c from rfl] at hx
    rw [Option.mem_def, Option.some_inj] at hx
    subst hx
    exact h.1

theorem RenderGood_keyevent {k : KeyEvent} (h : GoodKeyEvent k) :
    RenderGood (keyevent_string k) := by
  cases k
  case Char c =>
    by_cases hc : c = ' '
    · rw [keyevent_string, if_pos hc]
      exact renderGood_of_B (by decide)
    · rw [keyevent_string, if_neg hc]
      rcases h with h | h
      · exact absurd h hc
      · exact RenderGood_char h.2
  all_goals exact renderGood_of_B (by decide)

theorem RenderGood_opt_keyevent {o : Option KeyEvent} (h : GoodOpt GoodKeyEvent o) :
    RenderGood (opt_keyevent_string o) := by
  cases o with
  | none => exact renderGood_of_B (by decide)
  | some k => exact RenderGood_keyevent h

theorem RenderGood_opt_char {o : Option Char} (h : GoodOpt GoodChar o) :
    RenderGood (opt_char_string o) := by
  cases o with
  | none => exact renderGood_of_B (by decide)
  | some c => exact RenderGood_char h

theorem RenderGood_opt_usize {o : Option Nat} : RenderGood (opt_usize_string o) := by
  cases o with
  | none => exact renderGood_of_B (by decide)
  | some n => exact RenderGood_natToStr n

theorem getLast?_natToStr_append (l : Str) (n : Nat) :
    ∀ c ∈ (l ++ natToStr n).getLast?, c.isWhitespace = false := by
  intro c hc
  rw [List.getLast?_append] at hc
  cases hd : (natToStr n).getLast? with
  | none =>
    exact absurd (List.getLast?_eq_none_iff.mp hd) (natToStr_ne_nil n)
  | some d =>
    rw [hd] at hc
    rw [show (some d).or l.getLast? = some d from rfl, Option.mem_def,
      Option.some_inj] at hc
    rw [← hc]
    exact digits_not_ws d (natToStr_mem n d (mem_of_mem_getLast? hd))

theorem RenderGood_color (col : Color) : RenderGood (color_string col) := by
  cases col with
  | Rgb r g b =>
    refine ⟨?_, ?_, ?_, ?_⟩
    · intro he
      rw [color_string] at he
      simp at he
    · intro hm
      rw [color_string] at hm
      simp only [List.append_assoc, List.mem_append] at hm
      rcases hm with hm | hm | hm | hm | hm | hm
      · exact absurd hm (by decide)
      · exact digits_ne_eq '=' (natToStr_mem r '=' hm) rfl
      · exact absurd hm (by decide)
      · exact digits_ne_eq '=' (natToStr_mem g '=' hm) rfl
      · exact absurd hm (by decide)
      · exact digits_ne_eq '=' (natToStr_mem b '=' hm) rfl
    · intro c hc
      rw [show (color_string (Color.Rgb r g b)).head? = some 'r' from rfl,
        Option.mem_def, Option.some_inj] at hc
      subst hc
      decide
    · rw [color_string]
      exact getLast?_natToStr_append _ b
  | AnsiValue n =>
    refine ⟨?_, ?_, ?_, ?_⟩
    · intro he
      rw [color_string] at he
      rw [List.append_eq_nil] at he
      exact absurd he.1 (by decide)
    · intro hm
      rw [color_string, List.mem_append] at hm
      rcases hm with hm | hm
      · exact absurd hm (by decide)
      · exact digits_ne_eq '=' (natToStr_mem n '=' hm) rfl
    · intro c hc
      rw [show (color_string (Color.AnsiValue n)).head? = some 'a' from rfl,
        Option.mem_def, Option.some_inj] at hc
      subst hc
      decide
    · rw [color_string]
      exact getLast?_natToStr_append _ n

theorem RenderGood_opt_color {o : Option Color} : RenderGood (opt_color_string o) := by
  cases o with
  | none => exact renderGood_of_B (by decide)
  | some col => exact RenderGood_color col

/-! ### Rendered optional values never collide with the `none` sentinel -/

theorem ne_none_of_head {v : Str} {c : Char} (hh : v.head? = some c)
    (hc : ¬Char.toLower c = 'n') : ¬toAsciiLower v = str "none" := by
  intro he
  cases v with
  | nil => exact absurd hh (by simp)
  | cons a l =>
    rw [List.head?_cons, Option.some_inj] at hh
    subst hh
    rw [toAsciiLower, List.map_cons] at he
    exact hc (List.head_eq_of_cons_eq he)

theorem ne_none_of_length {v : Str} (h : ¬v.length = 4) :
    ¬toAsciiLower v = str "none" := by
  intro he
  apply h
  have h2 := congrArg List.length he
  rw [toAsciiLower, List.length_map] at h2
  exact h2

theorem lower_singleton_ne_none (c : Char) : ¬toAsciiLower [c] = str "none" :=
  ne_none_of_length (by simp)

theorem lower_keyevent_ne_none (k : KeyEvent) :
    ¬toAsciiLower (keyevent_string k) = str "none" := by
  cases k
  case Char c =>
    rw [keyevent_string]
    split
    · decide
    · exact lower_singleton_ne_none c
  all_goals decide

theorem lower_color_ne_none (col : Color) :
    ¬toAsciiLower (color_string col) = str "none" := by
  cases col with
  | Rgb r g b => exact ne_none_of_head rfl (by decide)
  | AnsiValue n => exact ne_none_of_head rfl (by decide)

theorem lower_natToStr_ne_none (n : Nat) : ¬toAsciiLower (natToStr n) = str "none" := by
  cases hd : natToStr n with
  | nil => exact absurd hd (natToStr_ne_nil n)
  | cons c cs =>
    refine ne_none_of_head (c := c) (by simp [hd]) ?_
    exact digits_lower_ne_n c (natToStr_mem n c (by rw [hd]; exact List.mem_cons_self c cs))

/-! ### Parser/renderer round trips per value type -/

theorem parse_mode_round (m : Mode) (n : Nat) (l : Str) :
    parse_mode (mode_string m) n l = .ok m := by
  cases m <;> rfl

theorem parse_bool_round (b : Bool) (n : Nat) (l : Str) :
    parse_bool (bool_string b) n l = .ok b := by
  cases b <;> rfl

theorem parse_char_round (c : Char) (n : Nat) (l : Str) :
    parse_char [c] n l = .ok c := rfl

theorem parse_keyevent_round {k : KeyEvent} (h : GoodKeyEvent k) (n : Nat) (l : Str) :
    parse_keyevent (keyevent_string k) n l = .ok k := by
  cases k
  case Char c =>
    by_cases hc : c = ' '
    · subst hc
      rfl
    · rw [keyevent_string, if_neg hc]
      rcases h with h | h
      · exact absurd h hc
      · rw [parse_keyevent, if_pos (by rw [rustLen, List.map_singleton]; simp [h.1])]
  all_goals rfl

theorem splitWsAux_all_not_ws {s : Str} (h : ∀ c ∈ s, c.isWhitespace = false) :
    ∀ acc : Str, splitWsAux s acc =
      if (acc.reverse ++ s).isEmpty then [] else [acc.reverse ++ s] := by
  induction s with
  | nil =>
    intro acc
    rw [splitWsAux, List.append_nil]
    by_cases ha : acc.isEmpty = true
    · have : acc = [] := List.isEmpty_iff.mp ha
      subst this
      rfl
    · have hb : acc.reverse.isEmpty = false := by
        cases hr : acc.reverse with
        | nil =>
          rw [List.reverse_eq_nil_iff] at hr
          subst hr
          exact absurd rfl ha
        | cons x xs => rfl
      have ha2 : acc.isEmpty = false := by
        cases hx : acc.isEmpty
        · rfl
        · exact absurd hx ha
      rw [ha2, hb]
  | cons c rest ih =>
    intro acc
    have hc : c.isWhitespace = false := h c (List.mem_cons_self c rest)
    rw [splitWsAux, hc]
    simp only [Bool.false_eq_true, if_false]
    rw [ih (fun x hx => h x (List.mem_cons_of_mem _ hx)) (c :: acc)]
    simp [List.append_assoc]

theorem splitWsAux_prefix {w : Str} (hw : ∀ c ∈ w, c.isWhitespace = false) :
    ∀ (s acc : Str), splitWsAux (w ++ s) acc = splitWsAux s (w.reverse ++ acc) := by
  induction w with
  | nil => intro s acc; simp
  | cons c wrest ih =>
    intro s acc
    have hc : c.isWhitespace = false := hw c (List.mem_cons_self c wrest)
    rw [List.cons_append, splitWsAux, hc]
    simp only [Bool.false_eq_true, if_false]
    rw [ih (fun x hx => hw x (List.mem_cons_of_mem _ hx)) s (c :: acc)]
    simp [List.append_assoc]

theorem splitWs_word_rest {w R : Str} (hw1 : w ≠ [])
    (hw2 : ∀ c ∈ w, c.isWhitespace = false) (hR1 : R ≠ [])
    (hR2 : ∀ c ∈ R, c.isWhitespace = false) :
    splitWs (w ++ ' ' :: R) = [w, R] := by
  rw [splitWs, splitWsAux_prefix hw2 (' ' :: R) [], splitWsAux]
  rw [if_pos (by decide)]
  have hwrev : (w.reverse ++ []).isEmpty = false := by
    rw [List.append_nil]
    cases hr : w.reverse with
    | nil =>
      rw [List.reverse_eq_nil_iff] at hr
      exact absurd hr hw1
    | cons x xs => rfl
  rw [hwrev]
  simp only [Bool.false_eq_true, if_false]
  rw [splitWsAux_all_not_ws hR2 []]
  have hR3 : (List.reverse [] ++ R).isEmpty = false := by
    rw [List.reverse_nil, List.nil_append]
    cases hr : R with
    | nil => exact absurd hr hR1
    | cons x xs => rfl
  rw [hR3]
  simp

theorem splitChar_digits3 (r g b : Nat) :
    splitChar ',' (natToStr r ++ ',' :: (natToStr g ++ ',' :: natToStr b)) =
      [natToStr r, natToStr g, natToStr b] := by
  rw [splitChar_append _ (fun hm => digits_ne_comma ',' (natToStr_mem r ',' hm) rfl),
    splitChar_append _ (fun hm => digits_ne_comma ',' (natToStr_mem g ',' hm) rfl),
    splitChar_of_not_mem (fun hm => digits_ne_comma ',' (natToStr_mem b ',' hm) rfl)]

theorem parse_rgb_triple_round {r g b : Nat} (hr : r ≤ 255) (hg : g ≤ 255)
    (hb : b ≤ 255) (n : Nat) (l : Str) :
    parse_rgb_triple (natToStr r ++ ',' :: (natToStr g ++ ',' :: natToStr b)) n l =
      .ok (r, g, b) := by
  rw [parse_rgb_triple, splitChar_digits3]
  simp only [List.get?, expectSome, parseUInt_natToStr hr, parseUInt_natToStr hg,
    parseUInt_natToStr hb]

theorem parse_color_round {col : Color} (h : GoodColor col) (n : Nat) (l : Str) :
    parse_color (color_string col) n l = .ok col := by
  cases col with
  | Rgb r g b =>
    obtain ⟨hr, hg, hb⟩ := h
    have hshape : color_string (Color.Rgb r g b) =
        str "rgb" ++ ' ' :: (natToStr r ++ ',' :: (natToStr g ++ ',' :: natToStr b)) := by
      rw [color_string]
      simp only [List.append_assoc, List.singleton_append]
      rfl
    have hRne : natToStr r ++ ',' :: (natToStr g ++ ',' :: natToStr b) ≠ [] := by
      intro he
      rw [List.append_eq_nil] at he
      exact absurd he.2 (by simp)
    have hRnws : ∀ c ∈ natToStr r ++ ',' :: (natToStr g ++ ',' :: natToStr b),
        c.isWhitespace = false := by
      intro c hc
      simp only [List.mem_append, List.mem_cons] at hc
      rcases hc with hc | hc | hc | hc | hc
      · exact digits_not_ws c (natToStr_mem r c hc)
      · subst hc; rfl
      · exact digits_not_ws c (natToStr_mem g c hc)
      · subst hc; rfl
      · exact digits_not_ws c (natToStr_mem b c hc)
    have hsw := splitWs_word_rest (w := str "rgb") (by decide) (by decide) hRne hRnws
    rw [hshape, parse_color, hsw]
    dsimp only
    rw [if_pos (by decide)]
    rw [parse_rgb_triple_round hr hg hb]
  | AnsiValue v =>
    have hshape : color_string (Color.AnsiValue v) =
        str "ansi" ++ ' ' :: natToStr v := by
      rw [color_string]
      rfl
    have hsw := splitWs_word_rest (w := str "ansi") (by decide) (by decide)
      (natToStr_ne_nil v) (fun c hc => digits_not_ws c (natToStr_mem v c hc))
    rw [hshape, parse_color, hsw]
    dsimp only
    rw [if_neg (by decide), if_pos (by decide)]
    simp only [expectSome, parseUInt_natToStr h]

/-! ### The tokenizer on serialized lines -/

theorem settingsGet_append_none {acc : Settings} {k0 : Str} {v : Str × Nat × Str}
    {k : Str} (h1 : settingsGet acc k = none) (h2 : ¬k0 = k) :
    settingsGet (acc ++ [(k0, v)]) k = none := by
  cases hx : settingsGet (acc ++ [(k0, v)]) k with
  | none => rfl
  | some y =>
    have hs : (settingsGet (acc ++ [(k0, v)]) k).isSome = true := by rw [hx]; rfl
    rcases (settingsGet_append_isSome acc k0 v k).mp hs with h | h
    · rw [h1] at h
      exact absurd h (by simp)
    · exact absurd h h2

theorem options_ne_nil : ∀ k ∈ CONFIG_OPTIONS, ¬k = [] := by decide

theorem options_no_eq : ∀ k ∈ CONFIG_OPTIONS, '=' ∉ k := by decide

theorem options_head_ne_sharp : ∀ k ∈ CONFIG_OPTIONS, ¬k.head? = some '#' := by decide

theorem options_trim : ∀ k ∈ CONFIG_OPTIONS, trim (k ++ [' ']) = k := by decide

theorem options_isEmpty : ∀ k ∈ CONFIG_OPTIONS, k.isEmpty = false := by decide

theorem mkLine_shape (k v : Str) : mkLine k v = (k ++ [' ']) ++ '=' :: (' ' :: v) := by
  simp [mkLine, List.append_assoc]

theorem mkLine_isEmpty {k : Str} (hk : ¬k = []) (v : Str) :
    (mkLine k v).isEmpty = false := by
  cases k with
  | nil => exact absurd rfl hk
  | cons a k2 => rfl

theorem mkLine_head {k : Str} (hk : ¬k = []) (v : Str) :
    (mkLine k v).head? = k.head? := by
  cases k with
  | nil => exact absurd rfl hk
  | cons a k2 => rfl

theorem trim_render {v : Str} (hv : RenderGood v) : trim (' ' :: v) = v := by
  rw [trim_cons_of_ws (by decide)]
  exact trim_eq_self hv.2.2.1 hv.2.2.2

theorem splitChar_mkLine {k v : Str} (hk : k ∈ CONFIG_OPTIONS) (hv : RenderGood v) :
    splitChar '=' (mkLine k v) = [k ++ [' '], ' ' :: v] := by
  rw [mkLine_shape]
  rw [splitChar_append _ (by
    intro hm
    rw [List.mem_append] at hm
    rcases hm with hm | hm
    · exact options_no_eq k hk hm
    · exact absurd hm (by decide))]
  rw [splitChar_of_not_mem (by
    intro hm
    rw [List.mem_cons] at hm
    rcases hm with hm | hm
    · exact absurd hm (by decide)
    · exact hv.2.1 hm)]

theorem tokenize_good :
    ∀ (ps : List (Str × Str)) (n : Nat) (acc : Settings),
    (∀ p ∈ ps, p.1 ∈ CONFIG_OPTIONS ∧ RenderGood p.2) →
    (ps.map Prod.fst).Nodup →
    (∀ p ∈ ps, settingsGet acc p.1 = none) →
    tokenize (List.enumFrom n (ps.map (fun p => mkLine p.1 p.2))) acc =
      .ok (acc ++ tableFrom n ps) := by
  intro ps
  induction ps with
  | nil =>
    intro n acc _ _ _
    rw [List.map_nil, List.enumFrom, tokenize, tableFrom, List.append_nil]
  | cons p rest ih =>
    obtain ⟨k, v⟩ := p
    intro n acc hgood hnodup hacc
    obtain ⟨hk, hv⟩ := hgood (k, v) (List.mem_cons_self _ _)
    rw [List.map_cons, List.enumFrom, tokenize]
    rw [mkLine_isEmpty (options_ne_nil k hk) v]
    simp only [Bool.false_eq_true, if_false]
    rw [if_neg (by
      rw [mkLine_head (options_ne_nil k hk) v]
      exact options_head_ne_sharp k hk)]
    rw [splitChar_mkLine hk hv]
    simp only [List.get?]
    rw [options_trim k hk, options_isEmpty k hk]
    simp only [Bool.false_eq_true, if_false]
    rw [trim_render hv]
    have hvne : v.isEmpty = false := by
      cases hve : v with
      | nil => exact absurd hve hv.1
      | cons x xs => rfl
    rw [hvne]
    simp only [Bool.false_eq_true, if_false]
    rw [if_pos (List.elem_eq_true_of_mem hk)]
    rw [hacc (k, v) (List.mem_cons_self _ _)]
    simp only [Option.isSome_none, Bool.false_eq_true, if_false]
    rw [List.map_cons, List.nodup_cons] at hnodup
    rw [ih (n + 1) (acc ++ [(k, v, n, mkLine k v)])
      (fun q hq => hgood q (List.mem_cons_of_mem _ hq))
      hnodup.2
      (fun q hq => settingsGet_append_none (hacc q (List.mem_cons_of_mem _ hq)) (by
        intro he
        exact hnodup.1 (by rw [he]; exact List.mem_map.mpr ⟨q, hq, rfl⟩)))]
    rw [tableFrom]
    simp [List.append_assoc]

/-! ### The serialized table and its lookups -/

theorem serPairs_fst (c : GameConfig) : (serPairs c).map Prod.fst =
    [str "fps", str "board_width", str "board_height", str "mode",
     str "move_left", str "move_right", str "rotate_clockwise",
     str "rotate_anticlockwise", str "soft_drop", str "hard_drop", str "hold",
     str "ghost_tetromino_character", str "ghost_tetromino_color",
     str "cascade", str "const_level", str "monochrome", str "border_color",
     str "top_border_character", str "tl_corner_character",
     str "left_border_character", str "bl_corner_character",
     str "bottom_border_character", str "br_corner_character",
     str "right_border_character", str "tr_corner_character",
     str "background_color", str "block_character", str "block_size",
     str "i_color", str "j_color", str "l_color", str "s_color",
     str "z_color", str "t_color", str "o_color"] := rfl

theorem tableOf_get_fps (c : GameConfig) :
    settingsGet (tableOf c) (str "fps") =
      some (natToStr c.fps, 0, mkLine (str "fps") (natToStr c.fps)) := rfl

theorem tableOf_get_board_width (c : GameConfig) :
    settingsGet (tableOf c) (str "board_width") =
      some (natToStr c.board_width, 1, mkLine (str "board_width") (natToStr c.board_width)) := rfl

theorem tableOf_get_board_height (c : GameConfig) :
    settingsGet (tableOf c) (str "board_height") =
      some (natToStr c.board_height, 2, mkLine (str "board_height") (natToStr c.board_height)) := rfl

theorem tableOf_get_mode (c : GameConfig) :
    settingsGet (tableOf c) (str "mode") =
      some (mode_string c.mode, 3, mkLine (str "mode") (mode_string c.mode)) := rfl

theorem tableOf_get_move_left (c : GameConfig) :
    settingsGet (tableOf c) (str "move_left") =
      some (keyevent_string c.left, 4, mkLine (str "move_left") (keyevent_string c.left)) := rfl

theorem tableOf_get_move_right (c : GameConfig) :
    settingsGet (tableOf c) (str "move_right") =
      some (keyevent_string c.right, 5, mkLine (str "move_right") (keyevent_string c.right)) := rfl

theorem tableOf_get_rotate_clockwise (c : GameConfig) :
    settingsGet (tableOf c) (str "rotate_clockwise") =
      some (keyevent_string c.rot_cw, 6, mkLine (str "rotate_clockwise") (keyevent_string c.rot_cw)) := rfl

theorem tableOf_get_rotate_anticlockwise (c : GameConfig) :
    settingsGet (tableOf c) (str "rotate_anticlockwise") =
      some (keyevent_string c.rot_acw, 7, mkLine (str "rotate_anticlockwise") (keyevent_string c.rot_acw)) := rfl

theorem tableOf_get_soft_drop (c : GameConfig) :
    settingsGet (tableOf c) (str "soft_drop") =
      some (keyevent_string c.soft_drop, 8, mkLine (str "soft_drop") (keyevent_string c.soft_drop)) := rfl

theorem tableOf_get_hard_drop (c : GameConfig) :
    settingsGet (tableOf c) (str "hard_drop") =
      some (opt_keyevent_string c.hard_drop, 9, mkLine (str "hard_drop") (opt_keyevent_string c.hard_drop)) := rfl

theorem tableOf_get_hold (c : GameConfig) :
    settingsGet (tableOf c) (str "hold") =
      some (opt_keyevent_string c.hold, 10, mkLine (str "hold") (opt_keyevent_string c.hold)) := rfl

theorem tableOf_get_ghost_tetromino_character (c : GameConfig) :
    settingsGet (tableOf c) (str "ghost_tetromino_character") =
      some (opt_char_string c.ghost_tetromino_character, 11, mkLine (str "ghost_tetromino_character") (opt_char_string c.ghost_tetromino_character)) := rfl

theorem tableOf_get_ghost_tetromino_color (c : GameConfig) :
    settingsGet (tableOf c) (str "ghost_tetromino_color") =
      some (opt_color_string c.ghost_tetromino_color, 12, mkLine (str "ghost_tetromino_color") (opt_color_string c.ghost_tetromino_color)) := rfl

theorem tableOf_get_cascade (c : GameConfig) :
    settingsGet (tableOf c) (str "cascade") =
      some (bool_string c.cascade, 13, mkLine (str "cascade") (bool_string c.cascade)) := rfl

theorem tableOf_get_const_level (c : GameConfig) :
    settingsGet (tableOf c) (str "const_level") =
      some (opt_usize_string c.const_level, 14, mkLine (str "const_level") (opt_usize_string c.const_level)) := rfl

theorem tableOf_get_monochrome (c : GameConfig) :
    settingsGet (tableOf c) (str "monochrome") =
      some (opt_color_string c.monochrome, 15, mkLine (str "monochrome") (opt_color_string c.monochrome)) := rfl

theorem tableOf_get_border_color (c : GameConfig) :
    settingsGet (tableOf c) (str "border_color") =
      some (color_string c.border_color, 16, mkLine (str "border_color") (color_string c.border_color)) := rfl

theorem tableOf_get_top_border_character (c : GameConfig) :
    settingsGet (tableOf c) (str "top_border_character") =
      some ([c.top_border_character], 17, mkLine (str "top_border_character") ([c.top_border_character])) := rfl

theorem tableOf_get_tl_corner_character (c : GameConfig) :
    settingsGet (tableOf c) (str "tl_corner_character") =
      some ([c.tl_corner_character], 18, mkLine (str "tl_corner_character") ([c.tl_corner_character])) := rfl

theorem tableOf_get_left_border_character (c : GameConfig) :
    settingsGet (tableOf c) (str "left_border_character") =
      some ([c.left_border_character], 19, mkLine (str "left_border_character") ([c.left_border_character])) := rfl

theorem tableOf_get_bl_corner_character (c : GameConfig) :
    settingsGet (tableOf c) (str "bl_corner_character") =
      some ([c.bl_corner_character], 20, mkLine (str "bl_corner_character") ([c.bl_corner_character])) := rfl

theorem tableOf_get_bottom_border_character (c : GameConfig) :
    settingsGet (tableOf c) (str "bottom_border_character") =
      some ([c.bottom_border_character], 21, mkLine (str "bottom_border_character") ([c.bottom_border_character])) := rfl

theorem tableOf_get_br_corner_character (c : GameConfig) :
    settingsGet (tableOf c) (str "br_corner_character") =
      some ([c.br_corner_character], 22, mkLine (str "br_corner_character") ([c.br_corner_character])) := rfl

theorem tableOf_get_right_border_character (c : GameConfig) :
    settingsGet (tableOf c) (str "right_border_character") =
      some ([c.right_border_character], 23, mkLine (str "right_border_character") ([c.right_border_character])) := rfl

theorem tableOf_get_tr_corner_character (c : GameConfig) :
    settingsGet (tableOf c) (str "tr_corner_character") =
      some ([c.tr_corner_character], 24, mkLine (str "tr_corner_character") ([c.tr_corner_character])) := rfl

theorem tableOf_get_background_color (c : GameConfig) :
    settingsGet (tableOf c) (str "background_color") =
      some (color_string c.background_color, 25, mkLine (str "background_color") (color_string c.background_color)) := rfl

theorem tableOf_get_block_character (c : GameConfig) :
    settingsGet (tableOf c) (str "block_character") =
      some ([c.block_character], 26, mkLine (str "block_character") ([c.block_character])) := rfl

theorem tableOf_get_block_size (c : GameConfig) :
    settingsGet (tableOf c) (str "block_size") =
      some (natToStr c.block_size, 27, mkLine (str "block_size") (natToStr c.block_size)) := rfl

theorem tableOf_get_i_color (c : GameConfig) :
    settingsGet (tableOf c) (str "i_color") =
      some (color_string c.i_color, 28, mkLine (str "i_color") (color_string c.i_color)) := rfl

theorem tableOf_get_j_color (c : GameConfig) :
    settingsGet (tableOf c) (str "j_color") =
      some (color_string c.j_color, 29, mkLine (str "j_color") (color_string c.j_color)) := rfl

theorem tableOf_get_l_color (c : GameConfig) :
    settingsGet (tableOf c) (str "l_color") =
      some (color_string c.l_color, 30, mkLine (str "l_color") (color_string c.l_color)) := rfl

theorem tableOf_get_s_color (c : GameConfig) :
    settingsGet (tableOf c) (str "s_color") =
      some (color_string c.s_color, 31, mkLine (str "s_color") (color_string c.s_color)) := rfl

theorem tableOf_get_z_color (c : GameConfig) :
    settingsGet (tableOf c) (str "z_color") =
      some (color_string c.z_color, 32, mkLine (str "z_color") (color_string c.z_color)) := rfl

theorem tableOf_get_t_color (c : GameConfig) :
    settingsGet (tableOf c) (str "t_color") =
      some (color_string c.t_color, 33, mkLine (str "t_color") (color_string c.t_color)) := rfl

theorem tableOf_get_o_color (c : GameConfig) :
    settingsGet (tableOf c) (str "o_color") =
      some (color_string c.o_color, 34, mkLine (str "o_color") (color_string c.o_color)) := rfl

theorem tableOf_get_left_none (c : GameConfig) :
    settingsGet (tableOf c) (str "left") = none := rfl

theorem tableOf_get_right_none (c : GameConfig) :
    settingsGet (tableOf c) (str "right") = none := rfl

theorem tableOf_get_rot_cw_none (c : GameConfig) :
    settingsGet (tableOf c) (str "rot_cw") = none := rfl

theorem tableOf_get_rot_acw_none (c : GameConfig) :
    settingsGet (tableOf c) (str "rot_acw") = none := rfl

theorem serPairs_good {c : GameConfig} (hp : Producible c) :
    ∀ p ∈ serPairs c, p.1 ∈ CONFIG_OPTIONS ∧ RenderGood p.2 := by
  intro p hp2
  rw [serPairs] at hp2
  simp only [List.mem_cons, List.not_mem_nil, or_false] at hp2
  rcases hp2 with h|h|h|h|h|h|h|h|h|h|h|h|h|h|h|h|h|h|h|h|h|h|h|h|h|h|h|h|h|h|h|h|h|h|h <;>
    subst h <;>
    refine ⟨by dsimp only; decide, ?_⟩ <;>
    first
      | exact RenderGood_natToStr _
      | exact RenderGood_mode _
      | exact RenderGood_bool _
      | exact RenderGood_color _
      | exact RenderGood_opt_color
      | exact RenderGood_opt_usize
      | exact RenderGood_keyevent hp.soft_drop_good
      | exact RenderGood_opt_keyevent hp.hard_drop_good
      | exact RenderGood_opt_keyevent hp.hold_good
      | exact RenderGood_opt_char hp.ghost_char_good
      | exact RenderGood_char hp.chars_good.1
      | exact RenderGood_char hp.chars_good.2.1
      | exact RenderGood_char hp.chars_good.2.2.1
      | exact RenderGood_char hp.chars_good.2.2.2.1
      | exact RenderGood_char hp.chars_good.2.2.2.2.1
      | exact RenderGood_char hp.chars_good.2.2.2.2.2.1
      | exact RenderGood_char hp.chars_good.2.2.2.2.2.2.1
      | exact RenderGood_char hp.chars_good.2.2.2.2.2.2.2.1
      | exact RenderGood_char hp.chars_good.2.2.2.2.2.2.2.2
      | (rw [hp.left_eq]; exact renderGood_of_B (by decide))
      | (rw [hp.right_eq]; exact renderGood_of_B (by decide))
      | (rw [hp.rot_cw_eq]; exact renderGood_of_B (by decide))
      | (rw [hp.rot_acw_eq]; exact renderGood_of_B (by decide))

theorem tokenize_serialize {c : GameConfig} (hp : Producible c) :
    tokenize (List.enum (serialize c)) [] = .ok (tableOf c) := by
  have h := tokenize_good (serPairs c) 0 []
    (serPairs_good hp) (by rw [serPairs_fst]; decide) (fun p _ => rfl)
  rw [show List.enum (serialize c) =
    List.enumFrom 0 ((serPairs c).map (fun p => mkLine p.1 p.2)) from rfl]
  rw [h, List.nil_append, tableOf]

/-! ### Reassembling a serialized record -/

theorem eb_congr {α β : Type} {x : Except ParseError α} {v : α}
    {f : α → Except ParseError β} {y : Except ParseError β}
    (hx : x = .ok v) (hf : f v = y) : eb x f = y := by
  rw [hx]
  exact hf

set_option maxHeartbeats 1000000 in
theorem assemble_tableOf {c : GameConfig} (hp : Producible c) :
    assemble (tableOf c) = .ok c := by
  have hbw_lo : 1 ≤ c.board_width := by have := hp.dims_w; omega
  have hbh_lo : 1 ≤ c.board_height := by have := hp.dims_h; omega
  have hfps : parse_num_range (tableOf c) (str "fps") D_FPS U64_MAX 1
      "Failed to parse FPS value."
      "FPS value is not greater than or equal to 1." = .ok c.fps := by
    rw [parse_num_range, tableOf_get_fps]
    dsimp only
    rw [parseUInt_natToStr hp.fps_hi]
    dsimp only
    rw [if_pos hp.fps_lo]
  have hbw : parse_num_range (tableOf c) (str "board_width") D_BOARD_WIDTH USIZE_MAX 1
      "Failed to parse board width value."
      "Board width value is not greater than or equal to 1." = .ok c.board_width := by
    rw [parse_num_range, tableOf_get_board_width]
    dsimp only
    rw [parseUInt_natToStr hp.bw_hi]
    dsimp only
    rw [if_pos hbw_lo]
  have hbh : parse_num_range (tableOf c) (str "board_height") D_BOARD_HEIGHT USIZE_MAX 1
      "Failed to parse board height value."
      "Board height value is not greater than or equal to 1." = .ok c.board_height := by
    rw [parse_num_range, tableOf_get_board_height]
    dsimp only
    rw [parseUInt_natToStr hp.bh_hi]
    dsimp only
    rw [if_pos hbh_lo]
  have hbs : parse_num_range (tableOf c) (str "block_size") D_BLOCK_SIZE USIZE_MAX 1
      "Failed to parse block size value."
      "Block size must be greater than or equal to 1." = .ok c.block_size := by
    rw [parse_num_range, tableOf_get_block_size]
    dsimp only
    rw [parseUInt_natToStr hp.bs_hi]
    dsimp only
    rw [if_pos hp.bs_lo]
  have hmode : general_parse (tableOf c) (str "mode") D_MODE parse_mode = .ok c.mode := by
    rw [general_parse, tableOf_get_mode]
    dsimp only
    exact parse_mode_round c.mode _ _
  have hleft : general_parse (tableOf c) (str "left") D_LEFT parse_keyevent =
      .ok c.left := by
    rw [general_parse, tableOf_get_left_none]
    dsimp only
    rw [hp.left_eq]
  have hright : general_parse (tableOf c) (str "right") D_RIGHT parse_keyevent =
      .ok c.right := by
    rw [general_parse, tableOf_get_right_none]
    dsimp only
    rw [hp.right_eq]
  have hrcw : general_parse (tableOf c) (str "rot_cw") D_ROT_CW parse_keyevent =
      .ok c.rot_cw := by
    rw [general_parse, tableOf_get_rot_cw_none]
    dsimp only
    rw [hp.rot_cw_eq]
  have hracw : general_parse (tableOf c) (str "rot_acw") D_ROT_ACW parse_keyevent =
      .ok c.rot_acw := by
    rw [general_parse, tableOf_get_rot_acw_none]
    dsimp only
    rw [hp.rot_acw_eq]
  have hsd : general_parse (tableOf c) (str "soft_drop") D_SOFT_DROP parse_keyevent =
      .ok c.soft_drop := by
    rw [general_parse, tableOf_get_soft_drop]
    dsimp only
    exact parse_keyevent_round hp.soft_drop_good _ _
  have hhd : opt_general_parse (tableOf c) (str "hard_drop") D_HARD_DROP parse_keyevent
      = .ok c.hard_drop := by
    rw [opt_general_parse, tableOf_get_hard_drop]
    dsimp only
    cases hx : c.hard_drop with
    | none => rw [if_pos (by decide)]
    | some k =>
      have hg : GoodKeyEvent k := by
        have hgg := hp.hard_drop_good
        rw [hx] at hgg
        exact hgg
      rw [show opt_keyevent_string (some k) = keyevent_string k from rfl,
        if_neg (lower_keyevent_ne_none k), parse_keyevent_round hg]
  have hho : opt_general_parse (tableOf c) (str "hold") D_HOLD parse_keyevent =
      .ok c.hold := by
    rw [opt_general_parse, tableOf_get_hold]
    dsimp only
    cases hx : c.hold with
    | none => rw [if_pos (by decide)]
    | some k =>
      have hg : GoodKeyEvent k := by
        have hgg := hp.hold_good
        rw [hx] at hgg
        exact hgg
      rw [show opt_keyevent_string (some k) = keyevent_string k from rfl,
        if_neg (lower_keyevent_ne_none k), parse_keyevent_round hg]
  have hgch : opt_general_parse (tableOf c) (str "ghost_tetromino_character")
      D_GHOST_TETROMINO_CHARACTER parse_char = .ok c.ghost_tetromino_character := by
    rw [opt_general_parse, tableOf_get_ghost_tetromino_character]
    dsimp only
    cases hx : c.ghost_tetromino_character with
    | none => rw [if_pos (by decide)]
    | some ch =>
      rw [show opt_char_string (some ch) = [ch] from rfl,
        if_neg (lower_singleton_ne_none ch), parse_char_round ch]
  have hgcl : opt_general_parse (tableOf c) (str "ghost_tetromino_color")
      D_GHOST_TETROMINO_COLOR parse_color = .ok c.ghost_tetromino_color := by
    rw [opt_general_parse, tableOf_get_ghost_tetromino_color]
    dsimp only
    cases hx : c.ghost_tetromino_color with
    | none => rw [if_pos (by decide)]
    | some col =>
      have hg : GoodColor col := by
        have hgg := hp.ghost_color_good
        rw [hx] at hgg
        exact hgg
      rw [show opt_color_string (some col) = color_string col from rfl,
        if_neg (lower_color_ne_none col), parse_color_round hg]
  have hcas : general_parse (tableOf c) (str "cascade") D_CASCADE parse_bool =
      .ok c.cascade := by
    rw [general_parse, tableOf_get_cascade]
    dsimp only
    exact parse_bool_round c.cascade _ _
  have hcl : opt_parse_num_range (tableOf c) (str "const_level") D_CONST_LEVEL
      USIZE_MAX 1 "Failed to parse constant level value."
      "Level value was not greater than or equal to 1." = .ok c.const_level := by
    rw [opt_parse_num_range, tableOf_get_const_level]
    dsimp only
    cases hx : c.const_level with
    | none => rw [if_pos (by decide)]
    | some v =>
      have hg : 1 ≤ v ∧ v ≤ USIZE_MAX := by
        have hgg := hp.const_level_good
        rw [hx] at hgg
        exact hgg
      rw [show opt_usize_string (some v) = natToStr v from rfl,
        if_neg (lower_natToStr_ne_none v), parseUInt_natToStr hg.2]
      dsimp only
      rw [if_pos hg.1]
  have hmono : opt_general_parse (tableOf c) (str "monochrome") D_MONOCHROME
      parse_color = .ok c.monochrome := by
    rw [opt_general_parse, tableOf_get_monochrome]
    dsimp only
    cases hx : c.monochrome with
    | none => rw [if_pos (by decide)]
    | some col =>
      have hg : GoodColor col := by
        have hgg := hp.monochrome_good
        rw [hx] at hgg
        exact hgg
      rw [show opt_color_string (some col) = color_string col from rfl,
        if_neg (lower_color_ne_none col), parse_color_round hg]
  have hbord : general_parse (tableOf c) (str "border_color") D_BORDER_COLOR
      parse_color = .ok c.border_color := by
    rw [general_parse, tableOf_get_border_color]
    dsimp only
    exact parse_color_round hp.border_color_good _ _
  have hbg : general_parse (tableOf c) (str "background_color") D_BACKGROUND_COLOR
      parse_color = .ok c.background_color := by
    rw [general_parse, tableOf_get_background_color]
    dsimp only
    exact parse_color_round hp.background_good _ _
  have htbc : general_parse (tableOf c) (str "top_border_character")
      D_TOP_BORDER_CHARACTER parse_char = .ok c.top_border_character := by
    rw [general_parse, tableOf_get_top_border_character]
    dsimp only
    exact parse_char_round _ _ _
  have htlc : general_parse (tableOf c) (str "tl_corner_character")
      D_TL_CORNER_CHARACTER parse_char = .ok c.tl_corner_character := by
    rw [general_parse, tableOf_get_tl_corner_character]
    dsimp only
    exact parse_char_round _ _ _
  have hlbc : general_parse (tableOf c) (str "left_border_character")
      D_LEFT_BORDER_CHARACTER parse_char = .ok c.left_border_character := by
    rw [general_parse, tableOf_get_left_border_character]
    dsimp only
    exact parse_char_round _ _ _
  have hblc : general_parse (tableOf c) (str "bl_corner_character")
      D_BL_CORNER_CHARACTER parse_char = .ok c.bl_corner_character := by
    rw [general_parse, tableOf_get_bl_corner_character]
    dsimp only
    exact parse_char_round _ _ _
  have hbbc : general_parse (tableOf c) (str "bottom_border_character")
      D_BOTTOM_BORDER_CHARACTER parse_char = .ok c.bottom_border_character := by
    rw [general_parse, tableOf_get_bottom_border_character]
    dsimp only
    exact parse_char_round _ _ _
  have hbrc : general_parse (tableOf c) (str "br_corner_character")
      D_BR_CORNER_CHARACTER parse_char = .ok c.br_corner_character := by
    rw [general_parse, tableOf_get_br_corner_character]
    dsimp only
    exact parse_char_round _ _ _
  have hrbc : general_parse (tableOf c) (str "right_border_character")
      D_RIGHT_BORDER_CHARACTER parse_char = .ok c.right_border_character := by
    rw [general_parse, tableOf_get_right_border_character]
    dsimp only
    exact parse_char_round _ _ _
  have htrc : general_parse (tableOf c) (str "tr_corner_character")
      D_TR_CORNER_CHARACTER parse_char = .ok c.tr_corner_character := by
    rw [general_parse, tableOf_get_tr_corner_character]
    dsimp only
    exact parse_char_round _ _ _
  have hbchar : general_parse (tableOf c) (str "block_character") D_BLOCK_CHARACTER
      parse_char = .ok c.block_character := by
    rw [general_parse, tableOf_get_block_character]
    dsimp only
    exact parse_char_round _ _ _
  have hic : general_parse (tableOf c) (str "i_color") D_I_COLOR parse_color =
      .ok c.i_color := by
    rw [general_parse, tableOf_get_i_color]
    dsimp only
    exact parse_color_round hp.piece_colors_good.1 _ _
  have hjc : general_parse (tableOf c) (str "j_color") D_J_COLOR parse_color =
      .ok c.j_color := by
    rw [general_parse, tableOf_get_j_color]
    dsimp only
    exact parse_color_round hp.piece_colors_good.2.1 _ _
  have hlc : general_parse (tableOf c) (str "l_color") D_L_COLOR parse_color =
      .ok c.l_color := by
    rw [general_parse, tableOf_get_l_color]
    dsimp only
    exact parse_color_round hp.piece_colors_good.2.2.1 _ _
  have hsc : general_parse (tableOf c) (str "s_color") D_S_COLOR parse_color =
      .ok c.s_color := by
    rw [general_parse, tableOf_get_s_color]
    dsimp only
    exact parse_color_round hp.piece_colors_good.2.2.2.1 _ _
  have hzc : general_parse (tableOf c) (str "z_color") D_Z_COLOR parse_color =
      .ok c.z_color := by
    rw [general_parse, tableOf_get_z_color]
    dsimp only
    exact parse_color_round hp.piece_colors_good.2.2.2.2.1 _ _
  have htc : general_parse (tableOf c) (str "t_color") D_T_COLOR parse_color =
      .ok c.t_color := by
    rw [general_parse, tableOf_get_t_color]
    dsimp only
    exact parse_color_round hp.piece_colors_good.2.2.2.2.2.1 _ _
  have hoc : general_parse (tableOf c) (str "o_color") D_O_COLOR parse_color =
      .ok c.o_color := by
    rw [general_parse, tableOf_get_o_color]
    dsimp only
    exact parse_color_round hp.piece_colors_good.2.2.2.2.2.2 _ _
  have hc : c = GameConfig.mk c.fps c.board_width c.board_height c.mode c.left
      c.right c.rot_cw c.rot_acw c.soft_drop c.hard_drop c.hold
      c.ghost_tetromino_character c.ghost_tetromino_color c.cascade c.const_level
      c.monochrome c.border_color c.top_border_character c.tl_corner_character
      c.left_border_character c.bl_corner_character c.bottom_border_character
      c.br_corner_character c.right_border_character c.tr_corner_character
      c.background_color c.block_character c.block_size c.i_color c.j_color
      c.l_color c.s_color c.z_color c.t_color c.o_color := rfl
  rw [assemble]
  refine eb_congr hfps ?_
  refine eb_congr hbw ?_
  refine eb_congr hbh ?_
  refine eb_congr hmode ?_
  refine eb_congr hleft ?_
  refine eb_congr hright ?_
  refine eb_congr hrcw ?_
  refine eb_congr hracw ?_
  refine eb_congr hsd ?_
  refine eb_congr hhd ?_
  refine eb_congr hho ?_
  refine eb_congr hgch ?_
  refine eb_congr hgcl ?_
  refine eb_congr hcas ?_
  refine eb_congr hcl ?_
  refine eb_congr hmono ?_
  refine eb_congr hbord ?_
  refine eb_congr htbc ?_
  refine eb_congr htlc ?_
  refine eb_congr hlbc ?_
  refine eb_congr hblc ?_
  refine eb_congr hbbc ?_
  refine eb_congr hbrc ?_
  refine eb_congr hrbc ?_
  refine eb_congr htrc ?_
  refine eb_congr hbg ?_
  refine eb_congr hbchar ?_
  refine eb_congr hbs ?_
  refine eb_congr hic ?_
  refine eb_congr hjc ?_
  refine eb_congr hlc ?_
  refine eb_congr hsc ?_
  refine eb_congr hzc ?_
  refine eb_congr htc ?_
  refine eb_congr hoc ?_
  show finalize (tableOf c) c.fps c.board_width c.board_height c.mode c.left
    c.right c.rot_cw c.rot_acw c.soft_drop c.hard_drop c.hold
    c.ghost_tetromino_character c.ghost_tetromino_color c.cascade c.const_level
    c.monochrome c.border_color c.top_border_character c.tl_corner_character
    c.left_border_character c.bl_corner_character c.bottom_border_character
    c.br_corner_character c.right_border_character c.tr_corner_character
    c.background_color c.block_character c.block_size c.i_color c.j_color
    c.l_color c.s_color c.z_color c.t_color c.o_color = .ok c
  rw [finalize.eq_def]
  rw [if_neg (by
    have h1 := hp.dims_w
    have h2 := hp.dims_h
    omega)]
  cases hm : c.monochrome with
  | some m =>
    dsimp only
    obtain ⟨p1, p2, p3, p4, p5, p6, p7⟩ := hp.mono_pieces m hm
    conv_rhs => rw [hc]
    simp only [Except.ok.injEq, GameConfig.mk.injEq]
    simp [hm, p1, p2, p3, p4, p5, p6, p7]
  | none =>
    dsimp only
    by_cases hmc : c.mode = Mode.Classic
    · rw [if_pos hmc]
      obtain ⟨e1, e2, e3, e4⟩ := hp.classic_none hm hmc
      conv_rhs => rw [hc]
      simp only [Except.ok.injEq, GameConfig.mk.injEq]
      simp [hm, e1, e2, e3, e4]
    · rw [if_neg hmc]
      conv_rhs => rw [hc]
      simp only [Except.ok.injEq, GameConfig.mk.injEq]
      simp [hm]

/-- The forward half of the round trip: any record satisfying the
producibility characterization reparses from its serialization. -/
theorem parse_serialize_of_producible {c : GameConfig} (hp : Producible c) :
    GameConfig.parse (serialize c) = .ok c := by
  rw [GameConfig.parse, tokenize_serialize hp]
  exact assemble_tableOf hp

/-! ### Inversion of a successful parse -/

theorem eb_ok {α β : Type} {x : Except ParseError α} {f : α → Except ParseError β}
    {b : β} (h : eb x f = .ok b) : ∃ a, x = .ok a ∧ f a = .ok b := by
  cases x with
  | error e => rw [eb] at h; exact absurd h (by simp)
  | ok a => exact ⟨a, rfl, h⟩

theorem expectSome_ok {α : Type} {o : Option α} {e : ParseError} {a : α}
    (h : expectSome o e = .ok a) : o = some a := by
  cases o with
  | none => rw [expectSome] at h; exact absurd h (by simp)
  | some x =>
    rw [expectSome, Except.ok.injEq] at h
    rw [h]

theorem parseUInt_le {bound : Nat} {s : Str} {v : Nat}
    (h : parseUInt bound s = some v) : v ≤ bound := by
  rw [parseUInt] at h
  cases hx : parseUIntRaw s with
  | none => rw [hx] at h; exact absurd h (by simp)
  | some w =>
    rw [hx] at h
    dsimp only at h
    split at h
    · rw [Option.some_inj] at h
      subst h
      assumption
    · exact absurd h (by simp)

theorem charBytes_pos (c : Char) : 1 ≤ charBytes c := by
  rw [charBytes]
  split
  · omega
  · split
    · omega
    · split
      · omega
      · omega

theorem trim_singleton_not_ws {c : Char} (h : trim [c] = [c]) :
    c.isWhitespace = false := by
  cases hw : c.isWhitespace
  · rfl
  · rw [trim_cons_of_ws hw] at h
    exact absurd h.symm (by simp [trim])

theorem parse_num_range_ok_inv {tb : Settings} {key : Str} {d bound lo : Nat}
    {fp oor : String} {v : Nat}
    (h : parse_num_range tb key d bound lo fp oor = .ok v) :
    v = d ∨ (lo ≤ v ∧ v ≤ bound) := by
  rw [parse_num_range] at h
  split at h
  · split at h
    · exact absurd h (by simp)
    · rename_i parsed hpu
      split at h
      · rw [Except.ok.injEq] at h
        subst h
        right
        exact ⟨by assumption, parseUInt_le hpu⟩
      · exact absurd h (by simp)
  · rw [Except.ok.injEq] at h
    exact Or.inl h.symm

theorem opt_parse_num_range_ok_inv {tb : Settings} {key : Str} {d : Option Nat}
    {bound lo : Nat} {fp oor : String} {w : Option Nat}
    (h : opt_parse_num_range tb key d bound lo fp oor = .ok w) :
    w = d ∨ w = none ∨ ∃ v, w = some v ∧ lo ≤ v ∧ v ≤ bound := by
  rw [opt_parse_num_range] at h
  split at h
  · split at h
    · rw [Except.ok.injEq] at h
      exact Or.inr (Or.inl h.symm)
    · split at h
      · exact absurd h (by simp)
      · rename_i parsed hpu
        split at h
        · rw [Except.ok.injEq] at h
          exact Or.inr (Or.inr ⟨parsed, h.symm, by assumption, parseUInt_le hpu⟩)
        · exact absurd h (by simp)
  · rw [Except.ok.injEq] at h
    exact Or.inl h.symm

theorem general_parse_ok_inv {α : Type} {tb : Settings} {key : Str} {d : α}
    {parser : Str → Nat → Str → Except ParseError α} {v : α}
    (h : general_parse tb key d parser = .ok v) :
    v = d ∨ ∃ rhs num line, settingsGet tb key = some (rhs, num, line) ∧
      parser rhs num line = .ok v := by
  rw [general_parse] at h
  split at h
  · rename_i rhs num line heq
    exact Or.inr ⟨rhs, num, line, heq, h⟩
  · rw [Except.ok.injEq] at h
    exact Or.inl h.symm

theorem opt_general_parse_ok_inv {α : Type} {tb : Settings} {key : Str}
    {d : Option α} {parser : Str → Nat → Str → Except ParseError α} {w : Option α}
    (h : opt_general_parse tb key d parser = .ok w) :
    w = d ∨ w = none ∨ ∃ rhs num line v, settingsGet tb key = some (rhs, num, line) ∧
      parser rhs num line = .ok v ∧ w = some v := by
  rw [opt_general_parse] at h
  split at h
  · rename_i rhs num line heq
    split at h
    · rw [Except.ok.injEq] at h
      exact Or.inr (Or.inl h.symm)
    · split at h
      · rename_i v hv
        rw [Except.ok.injEq] at h
        exact Or.inr (Or.inr ⟨rhs, num, line, v, heq, hv, h.symm⟩)
      · exact absurd h (by simp)
  · rw [Except.ok.injEq] at h
    exact Or.inl h.symm

theorem parse_char_good {rhs : Str} {n : Nat} {l : Str} {ch : Char}
    (hg : GoodRhs rhs) (h : parse_char rhs n l = .ok ch) : GoodChar ch := by
  rw [parse_char.eq_def] at h
  split at h
  · exact absurd h (by simp)
  · rename_i c2
    rw [Except.ok.injEq] at h
    subst h
    constructor
    · exact trim_singleton_not_ws hg.2.1
    · intro he
      exact hg.2.2 (he ▸ List.mem_singleton.mpr rfl)
  · exact absurd h (by simp)

theorem parse_rgb_triple_le {s : Str} {n : Nat} {l : Str} {r g b : Nat}
    (h : parse_rgb_triple s n l = .ok (r, g, b)) :
    r ≤ 255 ∧ g ≤ 255 ∧ b ≤ 255 := by
  rw [parse_rgb_triple] at h
  split at h
  · exact absurd h (by simp)
  · split at h
    · exact absurd h (by simp)
    · split at h
      · exact absurd h (by simp)
      · split at h
        · exact absurd h (by simp)
        · split at h
          · exact absurd h (by simp)
          · split at h
            · exact absurd h (by simp)
            · rename_i r2 hr2 gs hgs g2 hg2 bs hbs b2 hb2
              rw [Except.ok.injEq] at h
              rw [Prod.mk.injEq, Prod.mk.injEq] at h
              obtain ⟨h1, h2, h3⟩ := h
              subst h1
              subst h2
              subst h3
              exact ⟨parseUInt_le (expectSome_ok (by assumption)),
                parseUInt_le (expectSome_ok (by assumption)),
                parseUInt_le (expectSome_ok (by assumption))⟩

theorem parse_color_good {rhs : Str} {n : Nat} {l : Str} {col : Color}
    (h : parse_color rhs n l = .ok col) : GoodColor col := by
  rw [parse_color] at h
  split at h
  · exact absurd h (by simp)
  · exact absurd h (by simp)
  · split at h
    · split at h
      · exact absurd h (by simp)
      · rename_i r g b hrgb
        rw [Except.ok.injEq] at h
        subst h
        exact parse_rgb_triple_le hrgb
    · split at h
      · split at h
        · exact absurd h (by simp)
        · rename_i v hv
          rw [Except.ok.injEq] at h
          subst h
          exact parseUInt_le (expectSome_ok hv)
      · exact absurd h (by simp)

set_option maxHeartbeats 1600000 in
theorem parse_keyevent_good {rhs : Str} {n : Nat} {l : Str} {k : KeyEvent}
    (hg : GoodRhs rhs) (h : parse_keyevent rhs n l = .ok k) : GoodKeyEvent k := by
  rw [parse_keyevent.eq_def] at h
  split at h
  · rename_i hlen
    split at h
    · rename_i c rest2
      rw [Except.ok.injEq] at h
      subst h
      have hnil : rest2 = [] := by
        by_contra hne
        cases rest2 with
        | nil => exact hne rfl
        | cons d ds =>
          rw [rustLen, List.map_cons, List.map_cons, List.sum_cons,
            List.sum_cons] at hlen
          have h1 := charBytes_pos c
          have h2 := charBytes_pos d
          omega
      subst hnil
      have hcb : charBytes c = 1 := by
        rw [rustLen, List.map_singleton] at hlen
        simpa using hlen
      refine Or.inr ⟨hcb, ?_, ?_⟩
      · exact trim_singleton_not_ws hg.2.1
      · intro he
        exact hg.2.2 (he ▸ List.mem_singleton.mpr rfl)
    · exact Except.noConfusion h
  · split at h
    · rw [Except.ok.injEq] at h; subst h; exact Or.inl rfl
    · split at h
      · rw [Except.ok.injEq] at h; subst h; exact trivial
      · split at h
        · rw [Except.ok.injEq] at h; subst h; exact trivial
        · split at h
          · rw [Except.ok.injEq] at h; subst h; exact trivial
          · split at h
            · rw [Except.ok.injEq] at h; subst h; exact trivial
            · split at h
              · rw [Except.ok.injEq] at h; subst h; exact trivial
              · split at h
                · rw [Except.ok.injEq] at h; subst h; exact trivial
                · split at h
                  · rw [Except.ok.injEq] at h; subst h; exact trivial
                  · split at h
                    · rw [Except.ok.injEq] at h; subst h; exact trivial
                    · split at h
                      · rw [Except.ok.injEq] at h; subst h; exact trivial
                      · exact Except.noConfusion h

theorem settingsGet_mem {m : Settings} {key : Str} {v : Str × Nat × Str}
    (h : settingsGet m key = some v) : (key, v) ∈ m := by
  induction m with
  | nil => exact absurd h (by rw [settingsGet]; simp)
  | cons e rest ih =>
    obtain ⟨k0, v0⟩ := e
    rw [settingsGet] at h
    split at h
    · rename_i hk
      subst hk
      rw [Option.some_inj] at h
      subst h
      exact List.mem_cons_self _ _
    · exact List.mem_cons_of_mem _ (ih h)

theorem settingsGet_none_of_not_mem {m : Settings} {key : Str}
    (hg : ∀ e ∈ m, e.1 ∈ CONFIG_OPTIONS) (hk : key ∉ CONFIG_OPTIONS) :
    settingsGet m key = none := by
  induction m with
  | nil => rw [settingsGet]
  | cons e rest ih =>
    obtain ⟨k0, v0⟩ := e
    rw [settingsGet]
    rw [if_neg]
    · exact ih (fun e he => hg e (List.mem_cons_of_mem _ he))
    · intro hkeq
      exact hk (hkeq ▸ hg (k0, v0) (List.mem_cons_self _ _))

theorem tokenize_table_good {lst : List (Nat × Str)} {acc tb : Settings}
    (h : tokenize lst acc = .ok tb) (hacc : TableGood acc) : TableGood tb := by
  induction lst generalizing acc with
  | nil =>
    rw [tokenize, Except.ok.injEq] at h
    subst h
    exact hacc
  | cons p rest ih =>
    obtain ⟨num, line⟩ := p
    rw [tokenize] at h
    split at h
    · exact ih h hacc
    · split at h
      · exact ih h hacc
      · split at h
        · exact Except.noConfusion h
        · rename_i lhs0 hlhs
          split at h
          · exact Except.noConfusion h
          · split at h
            · exact Except.noConfusion h
            · rename_i rhs0 hrhs
              split at h
              · exact Except.noConfusion h
              · split at h
                · rename_i hcont
                  split at h
                  · exact Except.noConfusion h
                  · refine ih h ?_
                    intro e he
                    rcases List.mem_append.mp he with hin | hnew
                    · exact hacc e hin
                    · rw [List.mem_singleton] at hnew
                      subst hnew
                      refine ⟨by simpa using hcont, ?_, trim_trim _, ?_⟩
                      · intro hnil
                        rename_i hne _
                        have hnil2 : trim rhs0 = [] := hnil
                        exact hne (by rw [hnil2]; rfl)
                      · intro hmem
                        exact splitChar_parts_not_mem rhs0
                          (List.get?_mem hrhs) (trim_subset hmem)
                · exact Except.noConfusion h

set_option maxHeartbeats 1000000 in
theorem assemble_ok_inv {tb : Settings} {c : GameConfig}
    (h : assemble tb = .ok c) : AssembleInv tb c := by
  rw [assemble] at h
  obtain ⟨fps, hfps, h⟩ := eb_ok h
  obtain ⟨bw, hbw, h⟩ := eb_ok h
  obtain ⟨bh, hbh, h⟩ := eb_ok h
  obtain ⟨mode, hmode, h⟩ := eb_ok h
  obtain ⟨left, hleft, h⟩ := eb_ok h
  obtain ⟨right, hright, h⟩ := eb_ok h
  obtain ⟨rcw, hrcw, h⟩ := eb_ok h
  obtain ⟨racw, hracw, h⟩ := eb_ok h
  obtain ⟨sd, hsd, h⟩ := eb_ok h
  obtain ⟨hd, hhd, h⟩ := eb_ok h
  obtain ⟨ho, hho, h⟩ := eb_ok h
  obtain ⟨gch, hgch, h⟩ := eb_ok h
  obtain ⟨gcl, hgcl, h⟩ := eb_ok h
  obtain ⟨casc, hcasc, h⟩ := eb_ok h
  obtain ⟨clev, hclev, h⟩ := eb_ok h
  obtain ⟨mono, hmono, h⟩ := eb_ok h
  obtain ⟨bord, hbord, h⟩ := eb_ok h
  obtain ⟨tbc, htbc, h⟩ := eb_ok h
  obtain ⟨tlc, htlc, h⟩ := eb_ok h
  obtain ⟨lbc, hlbc, h⟩ := eb_ok h
  obtain ⟨blc, hblc, h⟩ := eb_ok h
  obtain ⟨bbc, hbbc, h⟩ := eb_ok h
  obtain ⟨brc, hbrc, h⟩ := eb_ok h
  obtain ⟨rbc, hrbc, h⟩ := eb_ok h
  obtain ⟨trc, htrc, h⟩ := eb_ok h
  obtain ⟨bg, hbg, h⟩ := eb_ok h
  obtain ⟨bchar, hbchar, h⟩ := eb_ok h
  obtain ⟨bs, hbs, h⟩ := eb_ok h
  obtain ⟨ic, hic, h⟩ := eb_ok h
  obtain ⟨jc, hjc, h⟩ := eb_ok h
  obtain ⟨lc2, hlc, h⟩ := eb_ok h
  obtain ⟨sc, hsc, h⟩ := eb_ok h
  obtain ⟨zc, hzc, h⟩ := eb_ok h
  obtain ⟨tc2, htc, h⟩ := eb_ok h
  obtain ⟨oc, hoc, h⟩ := eb_ok h
  rw [finalize.eq_def] at h
  split at h
  · split at h
    · exact Except.noConfusion h
    · split at h
      · exact Except.noConfusion h
      · split at h
        · exact Except.noConfusion h
        · exact Except.noConfusion h
  · rename_i hdims
    split at h
    · rw [Except.ok.injEq] at h
      subst h
      exact ⟨hfps, hbw, hbh, hmode, hleft, hright, hrcw, hracw, hsd, hcasc,
        hclev, hmono, hbord, hbg, htbc, htlc, hlbc, hblc, hbbc, hbrc, hrbc,
        htrc, hbchar, hbs, hdims,
        hd, ho, gch, gcl, ic, jc, lc2, sc, zc, tc2, oc,
        hhd, hho, hgch, hgcl, hic, hjc, hlc, hsc, hzc, htc, hoc,
        Or.inl ⟨_, rfl, rfl, rfl, rfl, rfl, rfl, rfl, rfl, rfl, rfl, rfl, rfl⟩⟩
    · split at h
      · rename_i hclassic
        rw [Except.ok.injEq] at h
        subst h
        exact ⟨hfps, hbw, hbh, hmode, hleft, hright, hrcw, hracw, hsd, hcasc,
          hclev, hmono, hbord, hbg, htbc, htlc, hlbc, hblc, hbbc, hbrc, hrbc,
          htrc, hbchar, hbs, hdims,
          hd, ho, gch, gcl, ic, jc, lc2, sc, zc, tc2, oc,
          hhd, hho, hgch, hgcl, hic, hjc, hlc, hsc, hzc, htc, hoc,
          Or.inr (Or.inl ⟨rfl, hclassic, rfl, rfl, rfl, rfl, rfl, rfl, rfl,
            rfl, rfl, rfl, rfl⟩)⟩
      · rename_i hnc
        rw [Except.ok.injEq] at h
        subst h
        exact ⟨hfps, hbw, hbh, hmode, hleft, hright, hrcw, hracw, hsd, hcasc,
          hclev, hmono, hbord, hbg, htbc, htlc, hlbc, hblc, hbbc, hbrc, hrbc,
          htrc, hbchar, hbs, hdims,
          hd, ho, gch, gcl, ic, jc, lc2, sc, zc, tc2, oc,
          hhd, hho, hgch, hgcl, hic, hjc, hlc, hsc, hzc, htc, hoc,
          Or.inr (Or.inr ⟨rfl, hnc, rfl, rfl, rfl, rfl, rfl, rfl, rfl, rfl,
            rfl, rfl, rfl⟩)⟩

theorem parse_ok_inv {ls : List Str} {c : GameConfig}
    (h : GameConfig.parse ls = .ok c) :
    ∃ tb, tokenize (List.enum ls) [] = .ok tb ∧ TableGood tb ∧ AssembleInv tb c := by
  rw [GameConfig.parse] at h
  split at h
  · exact Except.noConfusion h
  · rename_i tb htb
    exact ⟨tb, htb,
      tokenize_table_good htb (fun e he => absurd he (List.not_mem_nil e)),
      assemble_ok_inv h⟩

theorem general_parse_default {α : Type} {tb : Settings} (hg : TableGood tb)
    {key : Str} (hk : key ∉ CONFIG_OPTIONS) {d : α}
    {parser : Str → Nat → Str → Except ParseError α} {v : α}
    (h : general_parse tb key d parser = .ok v) : v = d := by
  have hnone : settingsGet tb key = none :=
    settingsGet_none_of_not_mem (fun e he => (hg e he).1) hk
  simp only [general_parse, hnone, Except.ok.injEq] at h
  exact h.symm

theorem gp_char_good {tb : Settings} (hg : TableGood tb) {key : Str} {d v : Char}
    (hd : GoodChar d) (h : general_parse tb key d parse_char = .ok v) :
    GoodChar v := by
  rcases general_parse_ok_inv h with hEq | ⟨rhs, num, line, hget, hp⟩
  · rw [hEq]; exact hd
  · exact parse_char_good (hg _ (settingsGet_mem hget)).2 hp

theorem gp_color_good {tb : Settings} (hg : TableGood tb) {key : Str} {d v : Color}
    (hd : GoodColor d) (h : general_parse tb key d parse_color = .ok v) :
    GoodColor v := by
  rcases general_parse_ok_inv h with hEq | ⟨rhs, num, line, hget, hp⟩
  · rw [hEq]; exact hd
  · exact parse_color_good hp

theorem gp_keyevent_good {tb : Settings} (hg : TableGood tb) {key : Str}
    {d v : KeyEvent} (hd : GoodKeyEvent d)
    (h : general_parse tb key d parse_keyevent = .ok v) : GoodKeyEvent v := by
  rcases general_parse_ok_inv h with hEq | ⟨rhs, num, line, hget, hp⟩
  · rw [hEq]; exact hd
  · exact parse_keyevent_good (hg _ (settingsGet_mem hget)).2 hp

theorem ogp_char_good {tb : Settings} (hg : TableGood tb) {key : Str}
    {d v : Option Char} (hd : GoodOpt GoodChar d)
    (h : opt_general_parse tb key d parse_char = .ok v) : GoodOpt GoodChar v := by
  rcases opt_general_parse_ok_inv h with hEq | hEq | ⟨rhs, num, line, w, hget, hp, hEq⟩
  · rw [hEq]; exact hd
  · rw [hEq]; exact trivial
  · rw [hEq]; exact parse_char_good (hg _ (settingsGet_mem hget)).2 hp

theorem ogp_color_good {tb : Settings} (hg : TableGood tb) {key : Str}
    {d v : Option Color} (hd : GoodOpt GoodColor d)
    (h : opt_general_parse tb key d parse_color = .ok v) : GoodOpt GoodColor v := by
  rcases opt_general_parse_ok_inv h with hEq | hEq | ⟨rhs, num, line, w, hget, hp, hEq⟩
  · rw [hEq]; exact hd
  · rw [hEq]; exact trivial
  · rw [hEq]; exact parse_color_good hp

theorem ogp_keyevent_good {tb : Settings} (hg : TableGood tb) {key : Str}
    {d v : Option KeyEvent} (hd : GoodOpt GoodKeyEvent d)
    (h : opt_general_parse tb key d parse_keyevent = .ok v) :
    GoodOpt GoodKeyEvent v := by
  rcases opt_general_parse_ok_inv h with hEq | hEq | ⟨rhs, num, line, w, hget, hp, hEq⟩
  · rw [hEq]; exact hd
  · rw [hEq]; exact trivial
  · rw [hEq]; exact parse_keyevent_good (hg _ (settingsGet_mem hget)).2 hp

theorem producible_of_parse {ls : List Str} {c : GameConfig}
    (h : GameConfig.parse ls = .ok c) : Producible c := by
  obtain ⟨tb, htb, hgood, inv⟩ := parse_ok_inv h
  obtain ⟨hd, ho, gch, gcl, ic, jc, lc2, sc, zc, tc2, oc, hhd, hho, hgch, hgcl,
    hic, hjc, hlc, hsc, hzc, htc, hoc, hbr⟩ := inv.modified
  have hfps : 1 ≤ c.fps ∧ c.fps ≤ U64_MAX := by
    rcases parse_num_range_ok_inv inv.fps_eq with hEq | ⟨h1, h2⟩
    · rw [hEq]; exact ⟨by decide, by decide⟩
    · exact ⟨h1, h2⟩
  have hbw : c.board_width ≤ USIZE_MAX := by
    rcases parse_num_range_ok_inv inv.bw_eq with hEq | ⟨h1, h2⟩
    · rw [hEq]; decide
    · exact h2
  have hbh : c.board_height ≤ USIZE_MAX := by
    rcases parse_num_range_ok_inv inv.bh_eq with hEq | ⟨h1, h2⟩
    · rw [hEq]; decide
    · exact h2
  have hbs : 1 ≤ c.block_size ∧ c.block_size ≤ USIZE_MAX := by
    rcases parse_num_range_ok_inv inv.bs_eq with hEq | ⟨h1, h2⟩
    · rw [hEq]; exact ⟨by decide, by decide⟩
    · exact ⟨h1, h2⟩
  have hdims := inv.dims
  have hmonog : GoodOpt GoodColor c.monochrome :=
    ogp_color_good hgood (by exact trivial) inv.monochrome_eq
  have hpieces : GoodColor ic ∧ GoodColor jc ∧ GoodColor lc2 ∧ GoodColor sc ∧
      GoodColor zc ∧ GoodColor tc2 ∧ GoodColor oc :=
    ⟨gp_color_good hgood (by exact ⟨by decide, by decide, by decide⟩) hic, gp_color_good hgood (by exact ⟨by decide, by decide, by decide⟩) hjc,
     gp_color_good hgood (by exact ⟨by decide, by decide, by decide⟩) hlc, gp_color_good hgood (by exact ⟨by decide, by decide, by decide⟩) hsc,
     gp_color_good hgood (by exact ⟨by decide, by decide, by decide⟩) hzc, gp_color_good hgood (by exact ⟨by decide, by decide, by decide⟩) htc,
     gp_color_good hgood (by exact ⟨by decide, by decide, by decide⟩) hoc⟩
  have hgk_hd : GoodOpt GoodKeyEvent hd :=
    ogp_keyevent_good hgood (by exact Or.inl rfl) hhd
  have hgk_ho : GoodOpt GoodKeyEvent ho :=
    ogp_keyevent_good hgood (by exact Or.inr ⟨by decide, by decide, by decide⟩) hho
  have hg_gch : GoodOpt GoodChar gch := ogp_char_good hgood (by exact ⟨by decide, by decide⟩) hgch
  have hg_gcl : GoodOpt GoodColor gcl := ogp_color_good hgood (by exact ⟨by decide, by decide, by decide⟩) hgcl
  refine ⟨hfps.1, hfps.2, hbw, hbh, hbs.1, hbs.2, by omega, by omega,
    general_parse_default hgood (by decide) inv.left_eq,
    general_parse_default hgood (by decide) inv.right_eq,
    general_parse_default hgood (by decide) inv.rot_cw_eq,
    general_parse_default hgood (by decide) inv.rot_acw_eq,
    gp_keyevent_good hgood (by exact trivial) inv.soft_drop_eq,
    ?_, ?_, ?_, ?_, ?_, hmonog,
    gp_color_good hgood (by exact ⟨by decide, by decide, by decide⟩) inv.border_eq,
    gp_color_good hgood (by exact ⟨by decide, by decide, by decide⟩) inv.background_eq,
    ⟨gp_char_good hgood (by exact ⟨by decide, by decide⟩) inv.tbc_eq,
     gp_char_good hgood (by exact ⟨by decide, by decide⟩) inv.tlc_eq,
     gp_char_good hgood (by exact ⟨by decide, by decide⟩) inv.lbc_eq,
     gp_char_good hgood (by exact ⟨by decide, by decide⟩) inv.blc_eq,
     gp_char_good hgood (by exact ⟨by decide, by decide⟩) inv.bbc_eq,
     gp_char_good hgood (by exact ⟨by decide, by decide⟩) inv.brc_eq,
     gp_char_good hgood (by exact ⟨by decide, by decide⟩) inv.rbc_eq,
     gp_char_good hgood (by exact ⟨by decide, by decide⟩) inv.trc_eq,
     gp_char_good hgood (by exact ⟨by decide, by decide⟩) inv.bchar_eq⟩,
    ?_, ?_, ?_⟩
  · rcases hbr with ⟨m, hmm, h1, _⟩ | ⟨_, _, h1, _⟩ | ⟨_, _, h1, _⟩
    · rw [h1]; exact hgk_hd
    · rw [h1]; exact trivial
    · rw [h1]; exact hgk_hd
  · rcases hbr with ⟨m, hmm, _, h2, _⟩ | ⟨_, _, _, h2, _⟩ | ⟨_, _, _, h2, _⟩
    · rw [h2]; exact hgk_ho
    · rw [h2]; exact trivial
    · rw [h2]; exact hgk_ho
  · rcases hbr with ⟨m, hmm, _, _, h3, _⟩ | ⟨_, _, _, _, h3, _⟩ | ⟨_, _, _, _, h3, _⟩
    · rw [h3]; exact hg_gch
    · rw [h3]; exact trivial
    · rw [h3]; exact hg_gch
  · rcases hbr with ⟨m, hmm, _, _, _, h4, _⟩ | ⟨_, _, _, _, _, h4, _⟩ |
      ⟨_, _, _, _, _, h4, _⟩
    · rw [h4]; exact hg_gcl
    · rw [h4]; exact trivial
    · rw [h4]; exact hg_gcl
  · rcases opt_parse_num_range_ok_inv inv.const_level_eq with hEq | hEq |
      ⟨v, hEq, h1, h2⟩
    · rw [hEq]; exact trivial
    · rw [hEq]; exact trivial
    · rw [hEq]; exact ⟨h1, h2⟩
  · rcases hbr with ⟨m, hmm, _, _, _, _, hi, hj, hl, hs2, hz, ht2, ho2⟩ |
      ⟨_, _, _, _, _, _, hi, hj, hl, hs2, hz, ht2, ho2⟩ |
      ⟨_, _, _, _, _, _, hi, hj, hl, hs2, hz, ht2, ho2⟩
    · have hm : GoodColor m := by rw [hmm] at hmonog; exact hmonog
      rw [hi, hj, hl, hs2, hz, ht2, ho2]
      exact ⟨hm, hm, hm, hm, hm, hm, hm⟩
    · rw [hi, hj, hl, hs2, hz, ht2, ho2]
      exact hpieces
    · rw [hi, hj, hl, hs2, hz, ht2, ho2]
      exact hpieces
  · intro m hm
    rcases hbr with ⟨m2, hmm, _, _, _, _, hi, hj, hl, hs2, hz, ht2, ho2⟩ |
      ⟨hmn, _⟩ | ⟨hmn, _⟩
    · rw [hm] at hmm
      rw [Option.some_inj] at hmm
      subst hmm
      exact ⟨hi, hj, hl, hs2, hz, ht2, ho2⟩
    · rw [hm] at hmn; exact Option.noConfusion hmn
    · rw [hm] at hmn; exact Option.noConfusion hmn
  · intro hnone hmode
    rcases hbr with ⟨m2, hmm, _⟩ | ⟨_, _, h1, h2, h3, h4, _⟩ | ⟨_, hncl, _⟩
    · rw [hnone] at hmm; exact Option.noConfusion hmm
    · exact ⟨h1, h2, h3, h4⟩
    · exact absurd hmode hncl

/-- C2: serializing any configuration record that `GameConfig.parse` can
produce and re-parsing it yields the identical record; in particular the
default record, which `parse` produces for the empty file, survives the
round trip. -/
theorem parse_serialize_roundtrip :
    (∀ (ls : List Str) (c : GameConfig), GameConfig.parse ls = .ok c →
      GameConfig.parse (serialize c) = .ok c) ∧
    GameConfig.parse [] = .ok GameConfig.default ∧
    GameConfig.parse (serialize GameConfig.default) = .ok GameConfig.default := by
  have hmain : ∀ (ls : List Str) (c : GameConfig), GameConfig.parse ls = .ok c →
      GameConfig.parse (serialize c) = .ok c :=
    fun ls c h => parse_serialize_of_producible (producible_of_parse h)
  have hdef : GameConfig.parse [] = .ok GameConfig.default := by decide
  exact ⟨hmain, hdef, hmain [] GameConfig.default hdef⟩

/-- Witness for C2: the round trip, applied to the record parsed from
the empty file (the default record). -/
theorem parse_serialize_roundtrip_witness :
    GameConfig.parse (serialize GameConfig.default) = .ok GameConfig.default :=
  parse_serialize_roundtrip.1 [] GameConfig.default parse_serialize_roundtrip.2.1

/-- C5 (amended): on every successfully parsed file whose record has
classic mode and no monochrome override, the hard-drop, hold and
ghost-piece fields of the record are all absent.  (With a monochrome
override the stripping is skipped — see the counterexample.) -/
theorem classic_strips_features_without_monochrome (ls : List Str)
    (c : GameConfig) (h : GameConfig.parse ls = .ok c)
    (hmode : c.mode = Mode.Classic) (hmono : c.monochrome = none) :
    c.hard_drop = none ∧ c.hold = none ∧
    c.ghost_tetromino_character = none ∧ c.ghost_tetromino_color = none :=
  (producible_of_parse h).classic_none hmono hmode

/-- Witness for C5 (amended): a classic-mode file with an explicit
`hold` setting still parses to a record with the features absent. -/
theorem classic_strips_features_without_monochrome_witness :
    GameConfig.parse [str "mode = classic", str "hold = x"] = .ok configClassic ∧
    (configClassic.hard_drop = none ∧ configClassic.hold = none ∧
      configClassic.ghost_tetromino_character = none ∧
      configClassic.ghost_tetromino_color = none) :=
  ⟨by decide, classic_strips_features_without_monochrome
    [str "mode = classic", str "hold = x"] configClassic (by decide)
    (by decide) (by decide)⟩

/-- C7: on every successfully parsed file whose record carries a
monochrome override, all seven piece colors equal the override, while
the border and background colors are exactly what their own lookups
against the tokenized settings table produce (configured value if the
key is present, default otherwise) — untouched by the monochrome rule. -/
theorem monochrome_overrides_only_piece_colors (ls : List Str)
    (c : GameConfig) (m : Color) (h : GameConfig.parse ls = .ok c)
    (hm : c.monochrome = some m) :
    (c.i_color = m ∧ c.j_color = m ∧ c.l_color = m ∧ c.s_color = m ∧
      c.z_color = m ∧ c.t_color = m ∧ c.o_color = m) ∧
    (∃ tb, tokenize (List.enum ls) [] = .ok tb ∧
      general_parse tb (str "border_color") D_BORDER_COLOR parse_color =
        .ok c.border_color ∧
      general_parse tb (str "background_color") D_BACKGROUND_COLOR parse_color =
        .ok c.background_color) := by
  obtain ⟨tb, htb, hgood, inv⟩ := parse_ok_inv h
  exact ⟨(producible_of_parse h).mono_pieces m hm,
    tb, htb, inv.border_eq, inv.background_eq⟩

/-- Witness for C7: a file setting `monochrome = rgb 10,10,10` and
`border_color = ansi 5` parses to a record with all piece colors
`rgb 10,10,10`, the configured border color, and the default background
color. -/
theorem monochrome_overrides_only_piece_colors_witness :
    (configMono.i_color = Color.Rgb 10 10 10 ∧
      configMono.j_color = Color.Rgb 10 10 10 ∧
      configMono.l_color = Color.Rgb 10 10 10 ∧
      configMono.s_color = Color.Rgb 10 10 10 ∧
      configMono.z_color = Color.Rgb 10 10 10 ∧
      configMono.t_color = Color.Rgb 10 10 10 ∧
      configMono.o_color = Color.Rgb 10 10 10) ∧
    (∃ tb, tokenize (List.enum
        [str "monochrome = rgb 10,10,10", str "border_color = ansi 5"]) [] =
          .ok tb ∧
      general_parse tb (str "border_color") D_BORDER_COLOR parse_color =
        .ok configMono.border_color ∧
      general_parse tb (str "background_color") D_BACKGROUND_COLOR parse_color =
        .ok configMono.background_color) :=
  monochrome_overrides_only_piece_colors
    [str "monochrome = rgb 10,10,10", str "border_color = ansi 5"]
    configMono (Color.Rgb 10 10 10) (by decide) (by decide)
